import Mathlib

set_option linter.unreachableTactic false
set_option linter.unnecessarySeqFocus false
set_option linter.unusedTactic false

/-!
Verification of the `operations` package of the rcc diagnostics tool
(`src/operations/diagnostics.go` and `src/operations/tlscheck.go`) against
its natural-language specification.

The Go code is shallowly embedded: pure helpers become Lean functions,
the mutated trust-table map becomes explicit state passing, the external
collaborators (the HTTP transport, `net.LookupHost`, `x509.Verify`,
configuration lookups, the `conda`/`xviper`/`cloud` packages) become
function or record parameters, and Go run-time panics become `Option`
results.  `uint16` protocol identifiers are `Nat` values (all values in
play are far below `2 ^ 16`, no overflow occurs anywhere in the code).
-/

/-! ### Status vocabulary and support links (diagnostics.go, lines 19-29) -/

def canaryHost : String := "https://downloads.robocorp.com"

def canaryUrl : String := "/canary.txt"

def supportLongPathUrl : String := "https://robocorp.com/docs/troubleshooting/windows-long-path"

def supportNetworkUrl : String := "https://robocorp.com/docs/troubleshooting/firewall-and-proxies"

def supportGeneralUrl : String := "https://robocorp.com/docs/troubleshooting"

def statusOk : String := "ok"

def statusWarning : String := "warning"

def statusFail : String := "fail"

def statusFatal : String := "fatal"

/-- The fixed host list probed by the DNS checks (diagnostics.go, lines 31-40). -/
def checkedHosts : List String :=
  ["api.eu1.robocloud.eu", "downloads.robocorp.com", "pypi.org",
   "conda.anaconda.org", "github.com", "files.pythonhosted.org"]

/-! ### Report data model (diagnostics.go, lines 42-52)

`DiagnosticCheck` is the check record of the `operations` package; the field
names follow the JSON tags (`type`, `status`, `message`, `url` -- the Go
field `Link` carries the tag `url`).  The `details` map of `DiagnosticStatus`
is embedded as an association list in insertion order; a canonical Go map
value corresponds to a list with strictly sorted (hence distinct) keys. -/

structure DiagnosticCheck where
  type : String
  status : String
  message : String
  link : String
deriving DecidableEq

structure DiagnosticStatus where
  details : List (String × String)
  checks : List DiagnosticCheck
deriving DecidableEq

/-! ### The `common` check record of the TLS probe

`tlsCheckHost` produces `common.DiagnosticCheck` values.  The `common`
package is not under src/, so this record and the category constants are
Modelled from the spec: the spec's data model lists the fields
`type`, `category`, `status`, `message`, `link` and the category vocabulary
`network-link`, `network-tls-version`, `network-tls-verify`,
`network-tls-chain` (an opaque enum of distinct values). -/

structure CommonCheck where
  type : String
  category : String
  status : String
  message : String
  link : String
deriving DecidableEq

/-- Modelled from the spec: category constant of `common` (link probes). -/
def CategoryNetworkLink : String := "network-link"

/-- Modelled from the spec: category constant of `common` (version checks). -/
def CategoryNetworkTLSVersion : String := "network-tls-version"

/-- Modelled from the spec: category constant of `common` (verify checks). -/
def CategoryNetworkTLSVerify : String := "network-tls-verify"

/-- Modelled from the spec: category constant of `common` (chain dumps). -/
def CategoryNetworkTLSChain : String := "network-tls-chain"

/-- Modelled from the spec: `settings.Global.DocsLink` (the `settings`
package is not under src/) prefixes the docs domain onto a relative
troubleshooting path; only its use as an opaque remediation link matters. -/
def docsLink (path : String) : String := "https://robocorp.com/docs/" ++ path

/-! ### Certificates and connection state (tlscheck.go)

`x509.Certificate` is embedded with exactly the fields the probe reads:
`DNSNames`, the formatted validity bounds (`NotBefore`/`NotAfter` reach the
code only through `Format`, so they are carried as the formatted strings),
the raw `Signature` bytes, and the `String()` renderings of `Subject` and
`Issuer` (the only forms the code consumes, via `%q` and `Issuer.String()`). -/

structure Certificate where
  dnsNames : List String
  notBefore : String
  notAfter : String
  signature : List Nat
  subject : String
  issuer : String
deriving DecidableEq

/-- `tls.ConnectionState` as read by `tlsCheckHost`: negotiated version,
server name, and the peer certificate chain (leaf first). -/
structure ConnState where
  version : Nat
  serverName : String
  peerCertificates : List Certificate
deriving DecidableEq

/-- `x509.VerifyOptions` as assembled by `tlsCheckHost` (tlscheck.go, lines
95-99): DNS name, the transport's root pool (an opaque value of type `ρ`),
and the intermediates pool built from `certificates[1:]`. -/
structure VerifyOptions (ρ : Type) where
  dnsName : String
  roots : ρ
  intermediates : List Certificate

/-! ### The shared trust table

The Go `roots map[string]bool` mutated by `tlsCheckHost` (line 117) is
embedded as an association list with overwrite-in-place update, the standard
functional model of a keyed map with last-write-wins assignment. -/

def TrustTable : Type := List (String × Bool)

def setTrust (table : TrustTable) (key : String) (value : Bool) : TrustTable :=
  match table with
  | [] => [(key, value)]
  | (k, v) :: rest => if k = key then (key, value) :: rest else (k, v) :: setTrust rest key value

def lookupTrust (table : TrustTable) (key : String) : Option Bool :=
  match table with
  | [] => none
  | (k, v) :: rest => if k = key then some v else lookupTrust rest key

/-! ### Protocol versions (tlscheck.go, lines 14-24) -/

def VersionSSL30 : Nat := 0x0300
def VersionTLS10 : Nat := 0x0301
def VersionTLS11 : Nat := 0x0302
def VersionTLS12 : Nat := 0x0303
def VersionTLS13 : Nat := 0x0304

/-- The five-entry version table built by `init` in tlscheck.go. -/
def tlsVersions (v : Nat) : Option String :=
  if v = VersionSSL30 then some "SSLv3"
  else if v = VersionTLS10 then some "TLS 1.0"
  else if v = VersionTLS11 then some "TLS 1.1"
  else if v = VersionTLS12 then some "TLS 1.2"
  else if v = VersionTLS13 then some "TLS 1.3"
  else none

/-! ### Go formatting helpers -/

/-- Go `%q` on a string or `Stringer` whose rendering needs no escapes:
the rendering wrapped in double quotes (the only facet the claims use). -/
def goQuote (s : String) : String := "\"" ++ s ++ "\""

/-- Go `%02X` of one byte: two uppercase hexadecimal digits. -/
def hexByte (b : Nat) : String :=
  let hi := b / 16 % 16
  let lo := b % 16
  let dig := fun (n : Nat) => if n < 10 then Char.ofNat (48 + n) else Char.ofNat (55 + n)
  String.mk [dig hi, dig lo]

/-- Go `% 02X` of a byte slice: space-separated uppercase hex bytes. -/
def hexBytes (bs : List Nat) : String := String.intercalate " " (bs.map hexByte)

/-- Go `%03x` of a `uint16`: lowercase hexadecimal, zero-padded to width 3. -/
def goHex3 (n : Nat) : String :=
  let ds := Nat.toDigits 16 n
  String.mk (List.replicate (3 - ds.length) '0' ++ ds)

/-! ### certificateChain (tlscheck.go, lines 44-54)

`certificate.Signature[:6]` is an unguarded slice: when a signature is
shorter than six bytes the Go code panics.  The panic is embedded as `none`;
on the defined domain the function returns the rendered chain. -/

/-- One `parts` entry of `certificateChain`: the `fmt.Sprintf` at line 50,
rendered only when the signature slice `[:6]` is in range. -/
def certificatePart (idx : Nat) (certificate : Certificate) : Option String :=
  if 6 ≤ certificate.signature.length then
    some ("#" ++ toString idx ++ ": [" ++ hexBytes (certificate.signature.take 6) ++
      " ...] names [" ++ String.intercalate ", " certificate.dnsNames ++ "] " ++
      certificate.notBefore ++ "..." ++ certificate.notAfter ++ " " ++
      goQuote certificate.subject ++ " issued by " ++ goQuote certificate.issuer)
  else none

def certificateParts (idx : Nat) (certificates : List Certificate) : Option (List String) :=
  match certificates with
  | [] => some []
  | c :: rest =>
    match certificatePart idx c, certificateParts (idx + 1) rest with
    | some part, some parts => some (part :: parts)
    | _, _ => none

def certificateChain (certificates : List Certificate) : Option String :=
  (certificateParts 0 certificates).map (String.intercalate "; ")

/-! ### tlsCheckHost (tlscheck.go, lines 56-145)

External collaborators become parameters: `rootCAs` is the transport's root
pool, `verify` is `x509.Certificate.Verify` (returning `none` on success and
the error rendering on failure), `debugFlag` is `common.DebugFlag()`, and
`connect` is the outcome of `tlsCheckHeadOnly` (a transport error rendered
as a string, or the connection state).  The trust-table mutation is returned
alongside the produced checks; a Go panic (see `certificateChain`) is `none`. -/

def tlsCheckHost {ρ : Type} (rootCAs : ρ)
    (verify : Certificate → VerifyOptions ρ → Option String)
    (debugFlag : Bool) (connect : Except String ConnState)
    (host : String) (roots : TrustTable) :
    Option (List CommonCheck × TrustTable) :=
  let supportUrl := docsLink "troubleshooting/firewall-and-proxies"
  let url := "https://" ++ host ++ "/"
  match connect with
  | .error err =>
    some ([{ type := "network", category := CategoryNetworkLink, status := statusWarning,
             message := url ++ " -> " ++ err, link := supportUrl }], roots)
  | .ok state =>
    let server := state.serverName
    let versionCheck : CommonCheck :=
      match tlsVersions state.version with
      | none =>
        { type := "network", category := CategoryNetworkTLSVersion, status := statusWarning,
          message := "unknown TLS version: " ++ goQuote host ++ " -> " ++ goHex3 state.version,
          link := supportUrl }
      | some version =>
        let tlsStatus := if state.version < VersionTLS12 then statusWarning else statusOk
        { type := "network", category := CategoryNetworkTLSVersion, status := tlsStatus,
          message := "TLS version: " ++ goQuote host ++ " -> " ++ version,
          link := supportUrl }
    match state.peerCertificates with
    | [] =>
      some ([versionCheck,
             { type := "network", category := CategoryNetworkTLSVerify, status := statusWarning,
               message := "no certificates for " ++ server, link := supportUrl }], roots)
    | leaf :: intermediates =>
      let toVerify : VerifyOptions ρ :=
        { dnsName := server, roots := rootCAs, intermediates := intermediates }
      let last := intermediates.getLastD leaf
      let verdict := verify leaf toVerify
      let roots' := setTrust roots last.issuer verdict.isNone
      match verdict with
      | some err =>
        let failCheck : CommonCheck :=
          { type := "network", category := CategoryNetworkTLSVerify, status := statusWarning,
            message := "TLS verification of " ++ goQuote server ++ " failed, reason: " ++ err ++
              " [last issuer: " ++ goQuote last.issuer ++ "]",
            link := supportUrl }
        if debugFlag then
          (certificateChain (leaf :: intermediates)).map (fun chain =>
            ([versionCheck, failCheck,
              { type := "network", category := CategoryNetworkTLSChain, status := statusWarning,
                message := goQuote host ++ " certificate chain is \x7b" ++ chain ++ "\x7d.",
                link := supportUrl }], roots'))
        else
          some ([versionCheck, failCheck], roots')
      | none =>
        some ([versionCheck,
               { type := "network", category := CategoryNetworkTLSVerify, status := statusOk,
                 message := "TLS verification of " ++ goQuote server ++
                   " passed with certificate issued by " ++ goQuote last.issuer,
                 link := supportUrl }], roots')

/-! ### The diagnostics environment

All external collaborators read by `RunDiagnostics` and its check producers
(diagnostics.go, lines 69-189): the static environment strings, the
`xviper` counters feeding `rccStatusLine`, `conda.ValidLocation`,
`conda.HasLongPathSupport`, `net.LookupHost` (error rendered as a string),
and the canary download client (`cloud.NewClient` error, response status
and body). -/

structure Env where
  executable : String
  version : String
  micromambaVersion : String
  robocorpHome : String
  userCacheDir : String
  userConfigDir : String
  userHomeDir : String
  workingDir : String
  tempDir : String
  controller : String
  trackingIdentity : String
  osName : String
  osArch : String
  numCPU : Nat
  statRequests : Int
  statHits : Int
  statDirty : Int
  statMisses : Int
  statFailures : Int
  statMerges : Int
  templateCount : Nat
  validLocation : String → Bool
  hasLongPathSupport : Bool
  lookupHost : String → Except String (List String)
  newClientError : Option String
  canaryStatus : Int
  canaryBody : String

/-- `rccStatusLine` (diagnostics.go, lines 100-109). -/
def rccStatusLine (env : Env) : String :=
  toString env.templateCount ++ " environments, " ++ toString env.statRequests ++
  " requests, " ++ toString env.statMerges ++ " merges, " ++ toString env.statHits ++
  " hits, " ++ toString env.statDirty ++ " dirty, " ++ toString env.statMisses ++
  " misses, " ++ toString env.statFailures ++ " failures | " ++ env.trackingIdentity

/-- `longPathSupportCheck` (diagnostics.go, lines 111-126). -/
def longPathSupportCheck (env : Env) : DiagnosticCheck :=
  if env.hasLongPathSupport then
    { type := "OS", status := statusOk,
      message := "Supports long enough paths.", link := supportLongPathUrl }
  else
    { type := "OS", status := statusFail,
      message := "Does not support long path names!", link := supportLongPathUrl }

/-- `robocorpHomeCheck` (diagnostics.go, lines 128-143). -/
def robocorpHomeCheck (env : Env) : DiagnosticCheck :=
  if !env.validLocation env.robocorpHome then
    { type := "RPA", status := statusFatal,
      message := "ROBOCORP_HOME (" ++ env.robocorpHome ++ ") contains characters that makes RPA fail.",
      link := supportGeneralUrl }
  else
    { type := "RPA", status := statusOk,
      message := "ROBOCORP_HOME (" ++ env.robocorpHome ++ ") is good enough.",
      link := supportGeneralUrl }

/-- Go `%v` of a `[]string`: space-separated elements in brackets. -/
def goStringSlice (xs : List String) : String :=
  "[" ++ String.intercalate " " xs ++ "]"

/-- `dnsLookupCheck` (diagnostics.go, lines 145-161). -/
def dnsLookupCheck (lookupHost : String → Except String (List String)) (site : String) :
    DiagnosticCheck :=
  match lookupHost site with
  | .error err =>
    { type := "network", status := statusFail,
      message := "DNS lookup " ++ site ++ " failed: " ++ err, link := supportNetworkUrl }
  | .ok found =>
    { type := "network", status := statusOk,
      message := site ++ " found: " ++ goStringSlice found, link := supportNetworkUrl }

/-- `canaryDownloadCheck` (diagnostics.go, lines 163-189). -/
def canaryDownloadCheck (env : Env) : DiagnosticCheck :=
  match env.newClientError with
  | some err =>
    { type := "network", status := statusFail,
      message := canaryHost ++ ": " ++ err, link := supportNetworkUrl }
  | none =>
    if env.canaryStatus ≠ 200 ∨ env.canaryBody ≠ "Used to testing connections" then
      { type := "network", status := statusFail,
        message := "Canary download failed: " ++ toString env.canaryStatus ++ ": " ++ env.canaryBody,
        link := supportNetworkUrl }
    else
      { type := "network", status := statusOk,
        message := "Canary download successful: " ++ canaryHost ++ canaryUrl,
        link := supportNetworkUrl }

/-- `RunDiagnostics` (diagnostics.go, lines 69-98).  The `details` map is
listed in the code's insertion order; the checks are appended strictly in
the code's order: home-directory check, long-path check, one DNS check per
configured host, canary check. -/
def RunDiagnostics (env : Env) : DiagnosticStatus :=
  { details :=
      [("executable", env.executable),
       ("rcc", env.version),
       ("stats", rccStatusLine env),
       ("micromamba", env.micromambaVersion),
       ("ROBOCORP_HOME", env.robocorpHome),
       ("user-cache-dir", env.userCacheDir),
       ("user-config-dir", env.userConfigDir),
       ("user-home-dir", env.userHomeDir),
       ("working-dir", env.workingDir),
       ("tempdir", env.tempDir),
       ("controller", env.controller),
       ("installationId", env.trackingIdentity),
       ("os", env.osName ++ " " ++ env.osArch),
       ("cpus", toString env.numCPU)],
    checks :=
      robocorpHomeCheck env :: longPathSupportCheck env ::
        (checkedHosts.map (dnsLookupCheck env.lookupHost) ++ [canaryDownloadCheck env]) }

/-! ### Human-readable rendering (diagnostics.go, lines 199-215)

`humaneDiagnostics` is embedded as the list of lines written to the sink.
`sort.Strings` is embedded as an insertion sort (any correct sort of the
byte-wise string order; on valid UTF-8, Go's byte-wise order coincides with
code-point order, which is the `String` linear order used here).  Indexing
the Go `details` map is embedded as `mapIndex`: the last binding for the
key, or the zero value `""` when absent. -/

def goPadRight (s : String) (w : Nat) : String :=
  s ++ String.mk (List.replicate (w - s.length) ' ')

def mapIndex (m : List (String × String)) (key : String) : String :=
  m.foldl (fun acc kv => if kv.1 = key then kv.2 else acc) ""

def humaneDiagnostics (details : DiagnosticStatus) : List String :=
  "Diagnostics:" ::
    ((List.insertionSort (fun a b => a ≤ b) (details.details.map Prod.fst)).map (fun key =>
      " - " ++ goPadRight key 18 ++ "...  " ++ goQuote (mapIndex details.details key))) ++
    "" :: "Checks:" ::
    details.checks.map (fun check =>
      " - " ++ goPadRight check.type 8 ++ " " ++ goPadRight check.status 8 ++ " " ++ check.message)

/-! ### JSON rendering: `AsJson` (diagnostics.go, lines 54-60)

`AsJson` delegates to `encoding/json.MarshalIndent(it, "", "  ")`.  The
stdlib behavior is embedded exactly for the marshalled type: the two report
fields in declaration order under their tags `details` and `checks`,
two-space indentation, map keys emitted in sorted order, and the encoder's
string escaping (`\"`, `\\`, `\n`, `\r`, `\t`, `\u00XX` for other control
characters, `<`, `>`, `&` for the HTML characters, and
` `/` `).  Marshalling this type never returns an error, so the
embedded `AsJson` is total.  Rendering is defined over character lists. -/

def lbrace : Char := Char.ofNat 123

def rbrace : Char := Char.ofNat 125

def escChar (c : Char) : List Char :=
  if c = '"' then ['\\', '"']
  else if c = '\\' then ['\\', '\\']
  else if c = '\n' then ['\\', 'n']
  else if c = '\r' then ['\\', 'r']
  else if c = '\t' then ['\\', 't']
  else if c.toNat < 0x20 then
    ['\\', 'u', '0', '0', Nat.digitChar (c.toNat / 16), Nat.digitChar (c.toNat % 16)]
  else if c = '<' ∨ c = '>' ∨ c = '&' then
    ['\\', 'u', '0', '0', Nat.digitChar (c.toNat / 16), Nat.digitChar (c.toNat % 16)]
  else if c.toNat = 0x2028 ∨ c.toNat = 0x2029 then
    ['\\', 'u', '2', '0', '2', Nat.digitChar (c.toNat % 16)]
  else [c]

def escStr : List Char → List Char
  | [] => []
  | c :: rest => escChar c ++ escStr rest

/-- A JSON string literal: the escaped text between double quotes. -/
def jquote (s : String) : List Char := '"' :: (escStr s.data ++ ['"'])

/-- One `"key": "value"` member of the `details` object. -/
def detailEntryJ (kv : String × String) : List Char :=
  jquote kv.1 ++ ':' :: ' ' :: jquote kv.2

/-- The members after the first one in the `details` object, each preceded
by the separator `",\n    "`, then the closing `"\n  }"`. -/
def detailsTailJ : List (String × String) → List Char
  | [] => '\n' :: ' ' :: ' ' :: [rbrace]
  | kv :: rest => ',' :: '\n' :: ' ' :: ' ' :: ' ' :: ' ' :: (detailEntryJ kv ++ detailsTailJ rest)

/-- The indented rendering of the `details` object (already key-sorted). -/
def detailsJ : List (String × String) → List Char
  | [] => [lbrace, rbrace]
  | kv :: rest => lbrace :: '\n' :: ' ' :: ' ' :: ' ' :: ' ' :: (detailEntryJ kv ++ detailsTailJ rest)

/-- The indented rendering of one check object, fields in declaration
order under their JSON tags. -/
def checkJ (c : DiagnosticCheck) : List Char :=
  lbrace :: ('\n' :: "      ".data ++ jquote "type" ++ ':' :: ' ' :: jquote c.type ++
    ',' :: '\n' :: "      ".data ++ jquote "status" ++ ':' :: ' ' :: jquote c.status ++
    ',' :: '\n' :: "      ".data ++ jquote "message" ++ ':' :: ' ' :: jquote c.message ++
    ',' :: '\n' :: "      ".data ++ jquote "url" ++ ':' :: ' ' :: jquote c.link ++
    '\n' :: "    ".data ++ [rbrace])

def checksTailJ : List DiagnosticCheck → List Char
  | [] => '\n' :: ' ' :: ' ' :: [']']
  | c :: rest => ',' :: '\n' :: "    ".data ++ (checkJ c ++ checksTailJ rest)

def checksJ : List DiagnosticCheck → List Char
  | [] => ['[', ']']
  | c :: rest => '[' :: '\n' :: "    ".data ++ (checkJ c ++ checksTailJ rest)

/-- Go string comparison (byte-wise, which on valid UTF-8 agrees with
code-point order): the order `MarshalIndent` sorts map keys by. -/
def charListLe : List Char → List Char → Bool
  | [], _ => true
  | _ :: _, [] => false
  | a :: as, b :: bs => if a < b then true else if b < a then false else charListLe as bs

/-- `AsJson`: the indented JSON text of a report.  The Go encoder writes
map keys in sorted order, embedded here with an insertion sort on keys. -/
def AsJson (r : DiagnosticStatus) : String :=
  String.mk (lbrace :: '\n' :: ' ' :: ' ' :: (jquote "details" ++ ':' :: ' ' ::
    (detailsJ (List.insertionSort (fun a b => charListLe a.1.data b.1.data = true) r.details) ++
      ',' :: '\n' :: ' ' :: ' ' :: (jquote "checks" ++ ':' :: ' ' ::
        (checksJ r.checks ++ '\n' :: [rbrace])))))

/-! ### JSON parsing

The model of `encoding/json.Unmarshal` into a `DiagnosticStatus`, written
as a fuel-indexed recursive-descent parser over character lists (the fuel
only bounds recursion depth; every lemma supplies fuel larger than the
input length, which is always enough).  It accepts arbitrary
interstitial whitespace and the string escapes the encoder can emit. -/

def isWsChar (c : Char) : Bool := c = ' ' ∨ c = '\n' ∨ c = '\t' ∨ c = '\r'

def skipWs : List Char → List Char
  | [] => []
  | c :: rest => if isWsChar c then skipWs rest else c :: rest

def hexVal (c : Char) : Option Nat :=
  if '0' ≤ c ∧ c ≤ '9' then some (c.toNat - 48)
  else if 'a' ≤ c ∧ c ≤ 'f' then some (c.toNat - 97 + 10)
  else if 'A' ≤ c ∧ c ≤ 'F' then some (c.toNat - 65 + 10)
  else none

/-- Scan a JSON string body up to the closing quote, decoding escapes. -/
def scanStr : Nat → List Char → Option (List Char × List Char)
  | 0, _ => none
  | _ + 1, [] => none
  | fuel + 1, c :: rest =>
    if c = '"' then some ([], rest)
    else if c = '\\' then
      match rest with
      | [] => none
      | e :: r2 =>
        if e = '"' then (scanStr fuel r2).map (fun p => ('"' :: p.1, p.2))
        else if e = '\\' then (scanStr fuel r2).map (fun p => ('\\' :: p.1, p.2))
        else if e = '/' then (scanStr fuel r2).map (fun p => ('/' :: p.1, p.2))
        else if e = 'n' then (scanStr fuel r2).map (fun p => ('\n' :: p.1, p.2))
        else if e = 'r' then (scanStr fuel r2).map (fun p => ('\r' :: p.1, p.2))
        else if e = 't' then (scanStr fuel r2).map (fun p => ('\t' :: p.1, p.2))
        else if e = 'b' then (scanStr fuel r2).map (fun p => ('\x08' :: p.1, p.2))
        else if e = 'f' then (scanStr fuel r2).map (fun p => ('\x0c' :: p.1, p.2))
        else if e = 'u' then
          match r2 with
          | h1 :: h2 :: h3 :: h4 :: r3 =>
            match hexVal h1, hexVal h2, hexVal h3, hexVal h4 with
            | some a, some b, some c2, some d =>
              (scanStr fuel r3).map
                (fun p => (Char.ofNat (((a * 16 + b) * 16 + c2) * 16 + d) :: p.1, p.2))
            | _, _, _, _ => none
          | _ => none
        else none
    else (scanStr fuel rest).map (fun p => (c :: p.1, p.2))

/-- Parse a JSON string token (leading whitespace allowed). -/
def parseStr (fuel : Nat) (input : List Char) : Option (String × List Char) :=
  match skipWs input with
  | '"' :: rest => (scanStr fuel rest).map (fun p => (String.mk p.1, p.2))
  | _ => none

/-- Consume one expected punctuation character (leading whitespace allowed). -/
def expectChar (c : Char) (input : List Char) : Option (List Char) :=
  match skipWs input with
  | d :: rest => if d = c then some rest else none
  | _ => none

/-- Parse the members of a non-empty string-to-string object, the opening
brace and any first-member whitespace already consumed. -/
def parseDetailsLoop : Nat → List Char → Option (List (String × String) × List Char)
  | 0, _ => none
  | fuel + 1, input =>
    match parseStr (fuel + 1) input with
    | none => none
    | some (key, rest1) =>
      match expectChar ':' rest1 with
      | none => none
      | some rest2 =>
        match parseStr (fuel + 1) rest2 with
        | none => none
        | some (value, rest3) =>
          match skipWs rest3 with
          | c :: rest4 =>
            if c = ',' then
              (parseDetailsLoop fuel rest4).map (fun p => ((key, value) :: p.1, p.2))
            else if c = rbrace then some ([(key, value)], rest4)
            else none
          | [] => none

/-- Parse a string-to-string object (the `details` value). -/
def parseDetails (fuel : Nat) (input : List Char) : Option (List (String × String) × List Char) :=
  match expectChar lbrace input with
  | none => none
  | some rest =>
    match skipWs rest with
    | c :: rest' =>
      if c = rbrace then some ([], rest') else parseDetailsLoop fuel (c :: rest')
    | [] => none

/-- Parse one tagged field: the expected key, a colon, a string value. -/
def parseField (fuel : Nat) (name : String) (input : List Char) : Option (String × List Char) :=
  match parseStr fuel input with
  | none => none
  | some (k, r1) =>
    if k = name then
      match expectChar ':' r1 with
      | none => none
      | some r2 => parseStr fuel r2
    else none

/-- Parse one check object: the four tagged fields in declaration order. -/
def parseCheck (fuel : Nat) (input : List Char) : Option (DiagnosticCheck × List Char) :=
  match expectChar lbrace input with
  | none => none
  | some r0 =>
  match parseField fuel "type" r0 with
  | none => none
  | some (v1, r1) =>
  match expectChar ',' r1 with
  | none => none
  | some r2 =>
  match parseField fuel "status" r2 with
  | none => none
  | some (v2, r3) =>
  match expectChar ',' r3 with
  | none => none
  | some r4 =>
  match parseField fuel "message" r4 with
  | none => none
  | some (v3, r5) =>
  match expectChar ',' r5 with
  | none => none
  | some r6 =>
  match parseField fuel "url" r6 with
  | none => none
  | some (v4, r7) =>
  match expectChar rbrace r7 with
  | none => none
  | some r8 => some ({ type := v1, status := v2, message := v3, link := v4 }, r8)

/-- Parse the elements of a non-empty check array, the opening bracket and
any first-element whitespace already consumed. -/
def parseChecksLoop : Nat → List Char → Option (List DiagnosticCheck × List Char)
  | 0, _ => none
  | fuel + 1, input =>
    match parseCheck (fuel + 1) input with
    | none => none
    | some (chk, rest) =>
      match skipWs rest with
      | c :: rest' =>
        if c = ',' then (parseChecksLoop fuel rest').map (fun p => (chk :: p.1, p.2))
        else if c = ']' then some ([chk], rest')
        else none
      | [] => none

/-- Parse a check array (the `checks` value). -/
def parseChecks (fuel : Nat) (input : List Char) : Option (List DiagnosticCheck × List Char) :=
  match expectChar '[' input with
  | none => none
  | some rest =>
    match skipWs rest with
    | c :: rest' =>
      if c = ']' then some ([], rest') else parseChecksLoop fuel (c :: rest')
    | [] => none

/-- The model of `json.Unmarshal` of a report: the top-level object with
its `details` and `checks` members, then only whitespace to the end. -/
def parseReport (s : String) : Option DiagnosticStatus :=
  let input := s.data
  let fuel := input.length + 1
  match expectChar lbrace input with
  | none => none
  | some r0 =>
  match parseStr fuel r0 with
  | none => none
  | some (k1, r1) =>
  if k1 = "details" then
    match expectChar ':' r1 with
    | none => none
    | some r2 =>
    match parseDetails fuel r2 with
    | none => none
    | some (ds, r3) =>
    match expectChar ',' r3 with
    | none => none
    | some r4 =>
    match parseStr fuel r4 with
    | none => none
    | some (k2, r5) =>
    if k2 = "checks" then
      match expectChar ':' r5 with
      | none => none
      | some r6 =>
      match parseChecks fuel r6 with
      | none => none
      | some (cs, r7) =>
      match expectChar rbrace r7 with
      | none => none
      | some r8 =>
        if skipWs r8 = [] then some { details := ds, checks := cs } else none
    else none
  else none

/-! ### Concrete sample values (used to instantiate theorems) -/

def sampleCert : Certificate :=
  { dnsNames := ["example.com"], notBefore := "2020-Jan-01", notAfter := "2030-Jan-01",
    signature := [1, 2, 3, 4, 5, 6, 7], subject := "CN=example.com",
    issuer := "CN=Sample Root CA" }

def shortSignatureCert : Certificate :=
  { dnsNames := ["short.example"], notBefore := "2020-Jan-01", notAfter := "2030-Jan-01",
    signature := [1, 2, 3], subject := "CN=short.example", issuer := "CN=Short CA" }

def sampleState : ConnState :=
  { version := 0x0304, serverName := "example.com", peerCertificates := [sampleCert] }

def sampleReport : DiagnosticStatus :=
  { details := [("alpha", "1"), ("beta", "two")],
    checks := [{ type := "network", status := "ok", message := "fine", link := "https://x" }] }

def sampleEnv : Env :=
  { executable := "/usr/bin/rcc", version := "v11.6.6", micromambaVersion := "0.25.1",
    robocorpHome := "/home/user/.robocorp", userCacheDir := "/home/user/.cache",
    userConfigDir := "/home/user/.config", userHomeDir := "/home/user",
    workingDir := "/tmp/work", tempDir := "/tmp", controller := "user",
    trackingIdentity := "id-123", osName := "linux", osArch := "amd64", numCPU := 8,
    statRequests := 0, statHits := 0, statDirty := 0, statMisses := 0, statFailures := 0,
    statMerges := 0, templateCount := 0, validLocation := fun _ => true,
    hasLongPathSupport := false, lookupHost := fun _ => Except.error "no such host",
    newClientError := none, canaryStatus := 200,
    canaryBody := "Used to testing connections" }


/-- Character-list prefix test (used to state "message contains ..."). -/
def isPre : List Char → List Char → Bool
  | [], _ => true
  | _ :: _, [] => false
  | a :: as, b :: bs => a == b && isPre as bs

/-- `hasSub pat s`: the character list `s` contains `pat` as a contiguous
substring. -/
def hasSub (pat : List Char) : List Char → Bool
  | [] => isPre pat []
  | c :: rest => isPre pat (c :: rest) || hasSub pat rest


theorem hexVal_digitChar : ∀ n < 16, hexVal (Nat.digitChar n) = some n := by decide

theorem scanStr_esc (s : List Char) : ∀ (rest : List Char) (fuel : Nat),
    (escStr s).length + rest.length < fuel →
    scanStr fuel (escStr s ++ '"' :: rest) = some (s, rest) := by
  induction s with
  | nil =>
    intro rest fuel h
    simp only [escStr, List.nil_append, List.length_nil, Nat.zero_add] at h ⊢
    obtain ⟨f, rfl⟩ : ∃ f, fuel = f + 1 := ⟨fuel - 1, by omega⟩
    simp [scanStr]
  | cons c s ih =>
    intro rest fuel h
    rw [escStr, List.length_append] at h
    rw [escStr, List.append_assoc]
    by_cases h1 : c = '"'
    · subst h1
      rw [show escChar '"' = ['\\', '"'] from by decide] at h ⊢
      obtain ⟨f, rfl⟩ : ∃ f, fuel = f + 1 := ⟨fuel - 1, by omega⟩
      simp only [List.length_cons, List.length_nil] at h
      simp only [List.cons_append, List.nil_append]
      have hih := ih rest f (by omega)
      simp [scanStr, hih]
    by_cases h2 : c = '\\'
    · subst h2
      rw [show escChar '\\' = ['\\', '\\'] from by decide] at h ⊢
      obtain ⟨f, rfl⟩ : ∃ f, fuel = f + 1 := ⟨fuel - 1, by omega⟩
      simp only [List.length_cons, List.length_nil] at h
      simp only [List.cons_append, List.nil_append]
      have hih := ih rest f (by omega)
      simp [scanStr, hih]
    by_cases h3 : c = '\n'
    · subst h3
      rw [show escChar '\n' = ['\\', 'n'] from by decide] at h ⊢
      obtain ⟨f, rfl⟩ : ∃ f, fuel = f + 1 := ⟨fuel - 1, by omega⟩
      simp only [List.length_cons, List.length_nil] at h
      simp only [List.cons_append, List.nil_append]
      have hih := ih rest f (by omega)
      simp [scanStr, hih]
    by_cases h4 : c = '\x0d'
    · subst h4
      rw [show escChar '\x0d' = ['\\', 'r'] from by decide] at h ⊢
      obtain ⟨f, rfl⟩ : ∃ f, fuel = f + 1 := ⟨fuel - 1, by omega⟩
      simp only [List.length_cons, List.length_nil] at h
      simp only [List.cons_append, List.nil_append]
      have hih := ih rest f (by omega)
      simp [scanStr, hih]
    by_cases h5 : c = '\t'
    · subst h5
      rw [show escChar '\t' = ['\\', 't'] from by decide] at h ⊢
      obtain ⟨f, rfl⟩ : ∃ f, fuel = f + 1 := ⟨fuel - 1, by omega⟩
      simp only [List.length_cons, List.length_nil] at h
      simp only [List.cons_append, List.nil_append]
      have hih := ih rest f (by omega)
      simp [scanStr, hih]
    by_cases h6 : c.toNat < 32
    · have he : escChar c =
          ['\\', 'u', '0', '0', Nat.digitChar (c.toNat / 16), Nat.digitChar (c.toNat % 16)] := by
        unfold escChar
        simp [h1, h2, h3, h4, h5, h6]
      rw [he] at h ⊢
      obtain ⟨f, rfl⟩ : ∃ f, fuel = f + 1 := ⟨fuel - 1, by omega⟩
      simp only [List.length_cons, List.length_nil] at h
      simp only [List.cons_append, List.nil_append]
      have hd1 : hexVal (Nat.digitChar (c.toNat / 16)) = some (c.toNat / 16) :=
        hexVal_digitChar _ (by omega)
      have hd2 : hexVal (Nat.digitChar (c.toNat % 16)) = some (c.toNat % 16) :=
        hexVal_digitChar _ (by omega)
      have hch : Char.ofNat (c.toNat / 16 * 16 + c.toNat % 16) = c := by
        rw [show c.toNat / 16 * 16 + c.toNat % 16 = c.toNat from by omega, Char.ofNat_toNat]
      have hih := ih rest f (by omega)
      simp [scanStr, hd1, hd2, show hexVal '0' = some 0 from by decide, hch,
        hih]
    by_cases h7 : c = '<' ∨ c = '>' ∨ c = '&'
    · rcases h7 with h7 | h7 | h7 <;> subst h7
      · rw [show escChar '<' = ['\\', 'u', '0', '0', '3', 'c'] from by decide] at h ⊢
        obtain ⟨f, rfl⟩ : ∃ f, fuel = f + 1 := ⟨fuel - 1, by omega⟩
        simp only [List.length_cons, List.length_nil] at h
        simp only [List.cons_append, List.nil_append]
        have hih := ih rest f (by omega)
        simp [scanStr, show hexVal '0' = some 0 from by decide,
          show hexVal '3' = some 3 from by decide, show hexVal 'c' = some 12 from by decide,
          show Char.ofNat 60 = '<' from by decide,
          hih]
      · rw [show escChar '>' = ['\\', 'u', '0', '0', '3', 'e'] from by decide] at h ⊢
        obtain ⟨f, rfl⟩ : ∃ f, fuel = f + 1 := ⟨fuel - 1, by omega⟩
        simp only [List.length_cons, List.length_nil] at h
        simp only [List.cons_append, List.nil_append]
        have hih := ih rest f (by omega)
        simp [scanStr, show hexVal '0' = some 0 from by decide,
          show hexVal '3' = some 3 from by decide, show hexVal 'e' = some 14 from by decide,
          show Char.ofNat 62 = '>' from by decide,
          hih]
      · rw [show escChar '&' = ['\\', 'u', '0', '0', '2', '6'] from by decide] at h ⊢
        obtain ⟨f, rfl⟩ : ∃ f, fuel = f + 1 := ⟨fuel - 1, by omega⟩
        simp only [List.length_cons, List.length_nil] at h
        simp only [List.cons_append, List.nil_append]
        have hih := ih rest f (by omega)
        simp [scanStr, show hexVal '0' = some 0 from by decide,
          show hexVal '2' = some 2 from by decide, show hexVal '6' = some 6 from by decide,
          show Char.ofNat 38 = '&' from by decide,
          hih]
    by_cases h8 : c.toNat = 8232 ∨ c.toNat = 8233
    · have he : escChar c = ['\\', 'u', '2', '0', '2', Nat.digitChar (c.toNat % 16)] := by
        unfold escChar
        simp [h1, h2, h3, h4, h5, h6, h7, h8]
      rw [he] at h ⊢
      obtain ⟨f, rfl⟩ : ∃ f, fuel = f + 1 := ⟨fuel - 1, by omega⟩
      simp only [List.length_cons, List.length_nil] at h
      simp only [List.cons_append, List.nil_append]
      rcases h8 with h8 | h8
      · have hch : Char.ofNat 8232 = c := by
          rw [show (8232 : Nat) = c.toNat from by omega, Char.ofNat_toNat]
        rw [show Nat.digitChar (c.toNat % 16) = '8' from by rw [h8]; decide]
        have hih := ih rest f (by omega)
        simp [scanStr, show hexVal '2' = some 2 from by decide,
          show hexVal '0' = some 0 from by decide, show hexVal '8' = some 8 from by decide,
          hch, hih]
      · have hch : Char.ofNat 8233 = c := by
          rw [show (8233 : Nat) = c.toNat from by omega, Char.ofNat_toNat]
        rw [show Nat.digitChar (c.toNat % 16) = '9' from by rw [h8]; decide]
        have hih := ih rest f (by omega)
        simp [scanStr, show hexVal '2' = some 2 from by decide,
          show hexVal '0' = some 0 from by decide, show hexVal '9' = some 9 from by decide,
          hch, hih]
    · have he : escChar c = [c] := by
        unfold escChar
        simp [h1, h2, h3, h4, h5, h6, h7, h8]
      rw [he] at h ⊢
      obtain ⟨f, rfl⟩ : ∃ f, fuel = f + 1 := ⟨fuel - 1, by omega⟩
      simp only [List.length_cons, List.length_nil] at h
      simp only [List.cons_append, List.nil_append]
      have hih := ih rest f (by omega)
      simp [scanStr, h1, h2, hih]

theorem skipWs_cons (c : Char) (x : List Char) :
    skipWs (c :: x) = if isWsChar c then skipWs x else c :: x := rfl

theorem skipWs_jquote (s : String) (x : List Char) :
    skipWs (jquote s ++ x) = jquote s ++ x := by
  simp [jquote, skipWs_cons, isWsChar]

theorem length_jquote (s : String) : (jquote s).length = (escStr s.data).length + 2 := by
  simp [jquote]

theorem length_detailEntryJ (kv : String × String) :
    (detailEntryJ kv).length =
      (escStr kv.1.data).length + (escStr kv.2.data).length + 6 := by
  simp [detailEntryJ, length_jquote]
  omega

theorem parseStr_skip (s : String) (rest input : List Char) (fuel : Nat)
    (hin : skipWs input = jquote s ++ rest)
    (hfuel : (escStr s.data).length + rest.length < fuel) :
    parseStr fuel input = some (s, rest) := by
  have hin' : skipWs input = '"' :: (escStr s.data ++ '"' :: rest) := by
    rw [hin]; simp [jquote]
  unfold parseStr
  rw [hin']
  simp [scanStr_esc s.data rest fuel hfuel]

theorem expectChar_skip (c : Char) (rest input : List Char) (hin : skipWs input = c :: rest) :
    expectChar c input = some rest := by
  simp [expectChar, hin]

theorem skipWs_detailEntry (kv : String × String) (x : List Char) :
    skipWs (detailEntryJ kv ++ x) = detailEntryJ kv ++ x := by
  simp [detailEntryJ, jquote, skipWs_cons, isWsChar, List.append_assoc]

theorem parseDetailsLoop_render (ds : List (String × String)) :
    ∀ (kv : String × String) (input rest : List Char) (fuel : Nat),
    skipWs input = detailEntryJ kv ++ (detailsTailJ ds ++ rest) →
    (detailEntryJ kv ++ (detailsTailJ ds ++ rest)).length < fuel →
    parseDetailsLoop fuel input = some (kv :: ds, rest) := by
  induction ds with
  | nil =>
    intro kv input rest fuel hin hfuel
    obtain ⟨f, rfl⟩ : ∃ f, fuel = f + 1 := ⟨fuel - 1, by omega⟩
    simp only [List.length_append, List.length_cons, List.length_nil, length_jquote,
      length_detailEntryJ, detailsTailJ] at hfuel
    have hkey : parseStr (f + 1) input =
        some (kv.1, ':' :: ' ' :: jquote kv.2 ++ (detailsTailJ [] ++ rest)) := by
      apply parseStr_skip
      · rw [hin]; simp [detailEntryJ]
      · simp only [List.length_append, List.length_cons, List.length_nil, length_jquote,
          detailsTailJ]
        omega
    have hcolon : expectChar ':' (':' :: ' ' :: jquote kv.2 ++ (detailsTailJ [] ++ rest)) =
        some (' ' :: jquote kv.2 ++ (detailsTailJ [] ++ rest)) := by
      apply expectChar_skip
      simp [skipWs_cons, isWsChar]
    have hval : parseStr (f + 1) (' ' :: jquote kv.2 ++ (detailsTailJ [] ++ rest)) =
        some (kv.2, detailsTailJ [] ++ rest) := by
      apply parseStr_skip
      · simp [skipWs_cons, isWsChar, skipWs_jquote]
      · simp only [List.length_append, List.length_cons, List.length_nil, detailsTailJ]
        omega
    have hend : skipWs (detailsTailJ [] ++ rest) = rbrace :: rest := by
      simp [detailsTailJ, skipWs_cons, isWsChar, rbrace]
    simp only [parseDetailsLoop, hkey, hcolon, hval, hend]
    rw [if_neg (show ¬(rbrace = ',') from by decide)]
    simp
  | cons kv2 ds ih =>
    intro kv input rest fuel hin hfuel
    obtain ⟨f, rfl⟩ : ∃ f, fuel = f + 1 := ⟨fuel - 1, by omega⟩
    simp only [List.length_append, List.length_cons, List.length_nil, length_jquote,
      length_detailEntryJ, detailsTailJ] at hfuel
    have hkey : parseStr (f + 1) input =
        some (kv.1, ':' :: ' ' :: jquote kv.2 ++ (detailsTailJ (kv2 :: ds) ++ rest)) := by
      apply parseStr_skip
      · rw [hin]; simp [detailEntryJ]
      · simp only [List.length_append, List.length_cons, List.length_nil, length_jquote,
          length_detailEntryJ, detailsTailJ]
        omega
    have hcolon : expectChar ':'
        (':' :: ' ' :: jquote kv.2 ++ (detailsTailJ (kv2 :: ds) ++ rest)) =
        some (' ' :: jquote kv.2 ++ (detailsTailJ (kv2 :: ds) ++ rest)) := by
      apply expectChar_skip
      simp [skipWs_cons, isWsChar]
    have hval : parseStr (f + 1) (' ' :: jquote kv.2 ++ (detailsTailJ (kv2 :: ds) ++ rest)) =
        some (kv.2, detailsTailJ (kv2 :: ds) ++ rest) := by
      apply parseStr_skip
      · simp [skipWs_cons, isWsChar, skipWs_jquote]
      · simp only [List.length_append, List.length_cons, List.length_nil, length_jquote,
          length_detailEntryJ, detailsTailJ]
        omega
    have hsep : skipWs (detailsTailJ (kv2 :: ds) ++ rest) =
        ',' :: ('\n' :: ' ' :: ' ' :: ' ' :: ' ' :: (detailEntryJ kv2 ++ detailsTailJ ds) ++ rest) := by
      simp [detailsTailJ, skipWs_cons, isWsChar, List.append_assoc]
    have hrec : parseDetailsLoop f
        ('\n' :: ' ' :: ' ' :: ' ' :: ' ' :: (detailEntryJ kv2 ++ (detailsTailJ ds ++ rest))) =
        some (kv2 :: ds, rest) := by
      apply ih
      · simp [List.cons_append, List.append_assoc, skipWs_cons, isWsChar, skipWs_detailEntry]
      · simp only [List.length_append, List.length_cons, List.length_nil, length_jquote,
          length_detailEntryJ]
        omega
    simp only [parseDetailsLoop, hkey, hcolon, hval, hsep]
    simp [hrec]

theorem parseDetails_render (ds : List (String × String)) (input rest : List Char) (fuel : Nat)
    (hin : skipWs input = detailsJ ds ++ rest)
    (hfuel : (detailsJ ds ++ rest).length < fuel) :
    parseDetails fuel input = some (ds, rest) := by
  cases ds with
  | nil =>
    have hlb : expectChar lbrace input = some (rbrace :: rest) := by
      apply expectChar_skip
      rw [hin]; simp [detailsJ]
    have hend : skipWs (rbrace :: rest) = rbrace :: rest := by
      simp [skipWs_cons, isWsChar, rbrace]
    simp only [parseDetails, hlb, hend]
    simp
  | cons kv ds =>
    obtain ⟨t, ht⟩ : ∃ t, detailEntryJ kv ++ (detailsTailJ ds ++ rest) = '"' :: t :=
      ⟨escStr kv.1.data ++ '"' :: ':' :: ' ' :: '"' ::
        (escStr kv.2.data ++ '"' :: (detailsTailJ ds ++ rest)), by simp [detailEntryJ, jquote]⟩
    have hlb : expectChar lbrace input =
        some ('\n' :: ' ' :: ' ' :: ' ' :: ' ' :: ('"' :: t)) := by
      apply expectChar_skip
      rw [hin, ← ht]; simp [detailsJ, List.cons_append, List.append_assoc]
    have hskip : skipWs ('\n' :: ' ' :: ' ' :: ' ' :: ' ' :: ('"' :: t)) = '"' :: t := by
      simp [skipWs_cons, isWsChar]
    have hloop : parseDetailsLoop fuel ('"' :: t) = some (kv :: ds, rest) := by
      apply parseDetailsLoop_render
      · rw [← ht]
        exact skipWs_detailEntry kv (detailsTailJ ds ++ rest)
      · have := congrArg List.length ht
        simp only [List.length_append] at this ⊢
        simp only [detailsJ, List.length_append, List.length_cons] at hfuel
        omega
    simp only [parseDetails, hlb, hskip, hloop]
    rw [if_neg (show ¬('"' = rbrace) from by decide)]

theorem parseField_render (name v : String) (tail input : List Char) (fuel : Nat)
    (hin : skipWs input = jquote name ++ (':' :: ' ' :: (jquote v ++ tail)))
    (hfuel : (escStr name.data).length + (escStr v.data).length + tail.length + 8 < fuel) :
    parseField fuel name input = some (v, tail) := by
  have hkey : parseStr fuel input = some (name, ':' :: ' ' :: (jquote v ++ tail)) := by
    apply parseStr_skip _ _ _ _ hin
    simp only [List.length_append, List.length_cons, List.length_nil, length_jquote]
    omega
  have hcolon : expectChar ':' (':' :: ' ' :: (jquote v ++ tail)) =
      some (' ' :: (jquote v ++ tail)) := by
    apply expectChar_skip
    simp [skipWs_cons, isWsChar]
  have hval : parseStr fuel (' ' :: (jquote v ++ tail)) = some (v, tail) := by
    apply parseStr_skip
    · simp [skipWs_cons, isWsChar, skipWs_jquote]
    · omega
  rw [parseField, hkey]
  simp [hcolon, hval]

theorem parseCheck_render (c : DiagnosticCheck) (input rest : List Char) (fuel : Nat)
    (hin : skipWs input = checkJ c ++ rest)
    (hfuel : (checkJ c ++ rest).length < fuel) :
    parseCheck fuel input = some (c, rest) := by
  have hsp6 : ("      " : String).data = [' ', ' ', ' ', ' ', ' ', ' '] := rfl
  have hsp4 : ("    " : String).data = [' ', ' ', ' ', ' '] := rfl
  have he : checkJ c ++ rest = lbrace ::
      ('\n' :: ' ' :: ' ' :: ' ' :: ' ' :: ' ' :: ' ' :: (jquote "type" ++ (':' :: ' ' :: (jquote c.type ++ (',' :: '\n' :: ' ' :: ' ' :: ' ' :: ' ' :: ' ' :: ' ' :: (jquote "status" ++ (':' :: ' ' :: (jquote c.status ++ (',' :: '\n' :: ' ' :: ' ' :: ' ' :: ' ' :: ' ' :: ' ' :: (jquote "message" ++ (':' :: ' ' :: (jquote c.message ++ (',' :: '\n' :: ' ' :: ' ' :: ' ' :: ' ' :: ' ' :: ' ' :: (jquote "url" ++ (':' :: ' ' :: (jquote c.link ++ ('\n' :: ' ' :: ' ' :: ' ' :: ' ' :: rbrace :: rest))))))))))))))))) := by
    simp [checkJ, hsp6, hsp4, List.cons_append, List.append_assoc]
  have hin' : skipWs input = lbrace ::
      ('\n' :: ' ' :: ' ' :: ' ' :: ' ' :: ' ' :: ' ' :: (jquote "type" ++ (':' :: ' ' :: (jquote c.type ++ (',' :: '\n' :: ' ' :: ' ' :: ' ' :: ' ' :: ' ' :: ' ' :: (jquote "status" ++ (':' :: ' ' :: (jquote c.status ++ (',' :: '\n' :: ' ' :: ' ' :: ' ' :: ' ' :: ' ' :: ' ' :: (jquote "message" ++ (':' :: ' ' :: (jquote c.message ++ (',' :: '\n' :: ' ' :: ' ' :: ' ' :: ' ' :: ' ' :: ' ' :: (jquote "url" ++ (':' :: ' ' :: (jquote c.link ++ ('\n' :: ' ' :: ' ' :: ' ' :: ' ' :: rbrace :: rest))))))))))))))))) := by
    rw [hin, he]
  rw [he] at hfuel
  simp only [List.length_append, List.length_cons, List.length_nil, length_jquote] at hfuel
  have hlb : expectChar lbrace input = some
      ('\n' :: ' ' :: ' ' :: ' ' :: ' ' :: ' ' :: ' ' :: (jquote "type" ++ (':' :: ' ' :: (jquote c.type ++ (',' :: '\n' :: ' ' :: ' ' :: ' ' :: ' ' :: ' ' :: ' ' :: (jquote "status" ++ (':' :: ' ' :: (jquote c.status ++ (',' :: '\n' :: ' ' :: ' ' :: ' ' :: ' ' :: ' ' :: ' ' :: (jquote "message" ++ (':' :: ' ' :: (jquote c.message ++ (',' :: '\n' :: ' ' :: ' ' :: ' ' :: ' ' :: ' ' :: ' ' :: (jquote "url" ++ (':' :: ' ' :: (jquote c.link ++ ('\n' :: ' ' :: ' ' :: ' ' :: ' ' :: rbrace :: rest))))))))))))))))) :=
    expectChar_skip _ _ _ hin'
  have hf1 : parseField fuel "type"
      ('\n' :: ' ' :: ' ' :: ' ' :: ' ' :: ' ' :: ' ' :: (jquote "type" ++ (':' :: ' ' :: (jquote c.type ++ (',' :: '\n' :: ' ' :: ' ' :: ' ' :: ' ' :: ' ' :: ' ' :: (jquote "status" ++ (':' :: ' ' :: (jquote c.status ++ (',' :: '\n' :: ' ' :: ' ' :: ' ' :: ' ' :: ' ' :: ' ' :: (jquote "message" ++ (':' :: ' ' :: (jquote c.message ++ (',' :: '\n' :: ' ' :: ' ' :: ' ' :: ' ' :: ' ' :: ' ' :: (jquote "url" ++ (':' :: ' ' :: (jquote c.link ++ ('\n' :: ' ' :: ' ' :: ' ' :: ' ' :: rbrace :: rest))))))))))))))))) = some (c.type,
      ',' :: '\n' :: ' ' :: ' ' :: ' ' :: ' ' :: ' ' :: ' ' :: (jquote "status" ++ (':' :: ' ' :: (jquote c.status ++ (',' :: '\n' :: ' ' :: ' ' :: ' ' :: ' ' :: ' ' :: ' ' :: (jquote "message" ++ (':' :: ' ' :: (jquote c.message ++ (',' :: '\n' :: ' ' :: ' ' :: ' ' :: ' ' :: ' ' :: ' ' :: (jquote "url" ++ (':' :: ' ' :: (jquote c.link ++ ('\n' :: ' ' :: ' ' :: ' ' :: ' ' :: rbrace :: rest))))))))))))) := by
    apply parseField_render
    · simp [skipWs_cons, isWsChar, skipWs_jquote]
    · simp only [List.length_append, List.length_cons, List.length_nil, length_jquote]
      omega
  have hc1 : expectChar ','
      (',' :: '\n' :: ' ' :: ' ' :: ' ' :: ' ' :: ' ' :: ' ' :: (jquote "status" ++ (':' :: ' ' :: (jquote c.status ++ (',' :: '\n' :: ' ' :: ' ' :: ' ' :: ' ' :: ' ' :: ' ' :: (jquote "message" ++ (':' :: ' ' :: (jquote c.message ++ (',' :: '\n' :: ' ' :: ' ' :: ' ' :: ' ' :: ' ' :: ' ' :: (jquote "url" ++ (':' :: ' ' :: (jquote c.link ++ ('\n' :: ' ' :: ' ' :: ' ' :: ' ' :: rbrace :: rest))))))))))))) = some
      ('\n' :: ' ' :: ' ' :: ' ' :: ' ' :: ' ' :: ' ' :: (jquote "status" ++ (':' :: ' ' :: (jquote c.status ++ (',' :: '\n' :: ' ' :: ' ' :: ' ' :: ' ' :: ' ' :: ' ' :: (jquote "message" ++ (':' :: ' ' :: (jquote c.message ++ (',' :: '\n' :: ' ' :: ' ' :: ' ' :: ' ' :: ' ' :: ' ' :: (jquote "url" ++ (':' :: ' ' :: (jquote c.link ++ ('\n' :: ' ' :: ' ' :: ' ' :: ' ' :: rbrace :: rest))))))))))))) := by
    apply expectChar_skip
    simp [skipWs_cons, isWsChar]
  have hf2 : parseField fuel "status"
      ('\n' :: ' ' :: ' ' :: ' ' :: ' ' :: ' ' :: ' ' :: (jquote "status" ++ (':' :: ' ' :: (jquote c.status ++ (',' :: '\n' :: ' ' :: ' ' :: ' ' :: ' ' :: ' ' :: ' ' :: (jquote "message" ++ (':' :: ' ' :: (jquote c.message ++ (',' :: '\n' :: ' ' :: ' ' :: ' ' :: ' ' :: ' ' :: ' ' :: (jquote "url" ++ (':' :: ' ' :: (jquote c.link ++ ('\n' :: ' ' :: ' ' :: ' ' :: ' ' :: rbrace :: rest))))))))))))) = some (c.status,
      ',' :: '\n' :: ' ' :: ' ' :: ' ' :: ' ' :: ' ' :: ' ' :: (jquote "message" ++ (':' :: ' ' :: (jquote c.message ++ (',' :: '\n' :: ' ' :: ' ' :: ' ' :: ' ' :: ' ' :: ' ' :: (jquote "url" ++ (':' :: ' ' :: (jquote c.link ++ ('\n' :: ' ' :: ' ' :: ' ' :: ' ' :: rbrace :: rest))))))))) := by
    apply parseField_render
    · simp [skipWs_cons, isWsChar, skipWs_jquote]
    · simp only [List.length_append, List.length_cons, List.length_nil, length_jquote]
      omega
  have hc2 : expectChar ','
      (',' :: '\n' :: ' ' :: ' ' :: ' ' :: ' ' :: ' ' :: ' ' :: (jquote "message" ++ (':' :: ' ' :: (jquote c.message ++ (',' :: '\n' :: ' ' :: ' ' :: ' ' :: ' ' :: ' ' :: ' ' :: (jquote "url" ++ (':' :: ' ' :: (jquote c.link ++ ('\n' :: ' ' :: ' ' :: ' ' :: ' ' :: rbrace :: rest))))))))) = some
      ('\n' :: ' ' :: ' ' :: ' ' :: ' ' :: ' ' :: ' ' :: (jquote "message" ++ (':' :: ' ' :: (jquote c.message ++ (',' :: '\n' :: ' ' :: ' ' :: ' ' :: ' ' :: ' ' :: ' ' :: (jquote "url" ++ (':' :: ' ' :: (jquote c.link ++ ('\n' :: ' ' :: ' ' :: ' ' :: ' ' :: rbrace :: rest))))))))) := by
    apply expectChar_skip
    simp [skipWs_cons, isWsChar]
  have hf3 : parseField fuel "message"
      ('\n' :: ' ' :: ' ' :: ' ' :: ' ' :: ' ' :: ' ' :: (jquote "message" ++ (':' :: ' ' :: (jquote c.message ++ (',' :: '\n' :: ' ' :: ' ' :: ' ' :: ' ' :: ' ' :: ' ' :: (jquote "url" ++ (':' :: ' ' :: (jquote c.link ++ ('\n' :: ' ' :: ' ' :: ' ' :: ' ' :: rbrace :: rest))))))))) = some (c.message,
      ',' :: '\n' :: ' ' :: ' ' :: ' ' :: ' ' :: ' ' :: ' ' :: (jquote "url" ++ (':' :: ' ' :: (jquote c.link ++ ('\n' :: ' ' :: ' ' :: ' ' :: ' ' :: rbrace :: rest))))) := by
    apply parseField_render
    · simp [skipWs_cons, isWsChar, skipWs_jquote]
    · simp only [List.length_append, List.length_cons, List.length_nil, length_jquote]
      omega
  have hc3 : expectChar ','
      (',' :: '\n' :: ' ' :: ' ' :: ' ' :: ' ' :: ' ' :: ' ' :: (jquote "url" ++ (':' :: ' ' :: (jquote c.link ++ ('\n' :: ' ' :: ' ' :: ' ' :: ' ' :: rbrace :: rest))))) = some
      ('\n' :: ' ' :: ' ' :: ' ' :: ' ' :: ' ' :: ' ' :: (jquote "url" ++ (':' :: ' ' :: (jquote c.link ++ ('\n' :: ' ' :: ' ' :: ' ' :: ' ' :: rbrace :: rest))))) := by
    apply expectChar_skip
    simp [skipWs_cons, isWsChar]
  have hf4 : parseField fuel "url"
      ('\n' :: ' ' :: ' ' :: ' ' :: ' ' :: ' ' :: ' ' :: (jquote "url" ++ (':' :: ' ' :: (jquote c.link ++ ('\n' :: ' ' :: ' ' :: ' ' :: ' ' :: rbrace :: rest))))) = some (c.link,
      '\n' :: ' ' :: ' ' :: ' ' :: ' ' :: rbrace :: rest) := by
    apply parseField_render
    · simp [skipWs_cons, isWsChar, skipWs_jquote]
    · simp only [List.length_append, List.length_cons, List.length_nil, length_jquote]
      omega
  have hrb : expectChar rbrace ('\n' :: ' ' :: ' ' :: ' ' :: ' ' :: rbrace :: rest) = some rest := by
    apply expectChar_skip
    simp [skipWs_cons, isWsChar, rbrace]
  simp only [parseCheck, hlb, hf1, hc1, hf2, hc2, hf3, hc3, hf4, hrb]

theorem skipWs_checkJ (c : DiagnosticCheck) (x : List Char) :
    skipWs (checkJ c ++ x) = checkJ c ++ x := by
  simp [checkJ, skipWs_cons, isWsChar, lbrace, List.cons_append]

theorem checkJ_head (c : DiagnosticCheck) : ∃ t, checkJ c = lbrace :: t := ⟨_, rfl⟩

theorem parseChecksLoop_render (cs : List DiagnosticCheck) :
    ∀ (c : DiagnosticCheck) (input rest : List Char) (fuel : Nat),
    skipWs input = checkJ c ++ (checksTailJ cs ++ rest) →
    (checkJ c ++ (checksTailJ cs ++ rest)).length < fuel →
    parseChecksLoop fuel input = some (c :: cs, rest) := by
  induction cs with
  | nil =>
    intro c input rest fuel hin hfuel
    obtain ⟨f, rfl⟩ : ∃ f, fuel = f + 1 := ⟨fuel - 1, by omega⟩
    have hchk : parseCheck (f + 1) input = some (c, checksTailJ [] ++ rest) := by
      apply parseCheck_render _ _ _ _ (by rw [hin])
      simp only [List.length_append] at hfuel ⊢
      omega
    have hend : skipWs (checksTailJ [] ++ rest) = ']' :: rest := by
      simp [checksTailJ, skipWs_cons, isWsChar]
    simp only [parseChecksLoop, hchk, hend]
    rw [if_neg (show ¬(']' = ',') from by decide)]
    simp
  | cons c2 cs ih =>
    intro c input rest fuel hin hfuel
    obtain ⟨f, rfl⟩ : ∃ f, fuel = f + 1 := ⟨fuel - 1, by omega⟩
    have hsp4 : ("    " : String).data = [' ', ' ', ' ', ' '] := rfl
    have hchk : parseCheck (f + 1) input = some (c, checksTailJ (c2 :: cs) ++ rest) := by
      apply parseCheck_render _ _ _ _ (by rw [hin])
      simp only [List.length_append] at hfuel ⊢
      omega
    have hsep : skipWs (checksTailJ (c2 :: cs) ++ rest) =
        ',' :: ('\n' :: ' ' :: ' ' :: ' ' :: ' ' :: (checkJ c2 ++ (checksTailJ cs ++ rest))) := by
      simp [checksTailJ, hsp4, skipWs_cons, isWsChar, List.cons_append, List.append_assoc]
    have hrec : parseChecksLoop f
        ('\n' :: ' ' :: ' ' :: ' ' :: ' ' :: (checkJ c2 ++ (checksTailJ cs ++ rest))) =
        some (c2 :: cs, rest) := by
      apply ih
      · simp [skipWs_cons, isWsChar, skipWs_checkJ]
      · simp only [List.length_append, List.length_cons, List.length_nil, checksTailJ,
          hsp4] at hfuel ⊢
        omega
    simp only [parseChecksLoop, hchk, hsep, hrec]
    simp

theorem parseChecks_render (cs : List DiagnosticCheck) (input rest : List Char) (fuel : Nat)
    (hin : skipWs input = checksJ cs ++ rest)
    (hfuel : (checksJ cs ++ rest).length < fuel) :
    parseChecks fuel input = some (cs, rest) := by
  cases cs with
  | nil =>
    have hlb : expectChar '[' input = some (']' :: rest) := by
      apply expectChar_skip
      rw [hin]; simp [checksJ]
    have hend : skipWs (']' :: rest) = ']' :: rest := by
      simp [skipWs_cons, isWsChar]
    simp only [parseChecks, hlb, hend]
    simp
  | cons c cs =>
    have hsp4 : ("    " : String).data = [' ', ' ', ' ', ' '] := rfl
    obtain ⟨t, ht⟩ := checkJ_head c
    have hkt : checkJ c ++ (checksTailJ cs ++ rest) =
        lbrace :: (t ++ (checksTailJ cs ++ rest)) := by
      rw [ht]; simp
    have hlb : expectChar '[' input =
        some ('\n' :: ' ' :: ' ' :: ' ' :: ' ' :: (lbrace :: (t ++ (checksTailJ cs ++ rest)))) := by
      apply expectChar_skip
      rw [hin, ← hkt]
      simp [checksJ, hsp4, List.cons_append, List.append_assoc]
    have hskip : skipWs ('\n' :: ' ' :: ' ' :: ' ' :: ' ' ::
        (lbrace :: (t ++ (checksTailJ cs ++ rest)))) =
        lbrace :: (t ++ (checksTailJ cs ++ rest)) := by
      simp [skipWs_cons, isWsChar, lbrace]
    have hloop : parseChecksLoop fuel (lbrace :: (t ++ (checksTailJ cs ++ rest))) =
        some (c :: cs, rest) := by
      apply parseChecksLoop_render
      · rw [← hkt]
        exact skipWs_checkJ c (checksTailJ cs ++ rest)
      · have := congrArg List.length hkt
        simp only [List.length_append, List.length_cons] at this hfuel ⊢
        simp only [checksJ, hsp4, List.length_append, List.length_cons, List.length_nil] at hfuel
        omega
    simp only [parseChecks, hlb, hskip, hloop]
    rw [if_neg (show ¬(lbrace = ']') from by decide)]

theorem skipWs_detailsJ (ds : List (String × String)) (x : List Char) :
    skipWs (detailsJ ds ++ x) = detailsJ ds ++ x := by
  cases ds <;> simp [detailsJ, skipWs_cons, isWsChar, lbrace, List.cons_append]

theorem skipWs_checksJ (cs : List DiagnosticCheck) (x : List Char) :
    skipWs (checksJ cs ++ x) = checksJ cs ++ x := by
  cases cs <;> simp [checksJ, skipWs_cons, isWsChar, List.cons_append]

theorem parseReport_asJson (r : DiagnosticStatus) :
    parseReport (AsJson r) =
      some { details := List.insertionSort (fun a b => charListLe a.1.data b.1.data = true) r.details, checks := r.checks } := by
  have hdata : (AsJson r).data = lbrace :: ('\n' :: ' ' :: ' ' :: (jquote "details" ++ ':' :: ' ' :: (detailsJ (List.insertionSort (fun a b => charListLe a.1.data b.1.data = true) r.details) ++ ',' :: '\n' :: ' ' :: ' ' :: (jquote "checks" ++ ':' :: ' ' :: (checksJ r.checks ++ '\n' :: [rbrace]))))) := rfl
  have hlen : (AsJson r).data.length =
      (escStr ['d', 'e', 't', 'a', 'i', 'l', 's']).length +
        (escStr ['c', 'h', 'e', 'c', 'k', 's']).length +
        (detailsJ (List.insertionSort (fun a b => charListLe a.1.data b.1.data = true) r.details)).length + (checksJ r.checks).length + 18 := by
    rw [hdata]
    simp only [List.length_append, List.length_cons, List.length_nil, length_jquote]
    omega
  have h1 : expectChar lbrace (AsJson r).data = some ('\n' :: ' ' :: ' ' :: (jquote "details" ++ ':' :: ' ' :: (detailsJ (List.insertionSort (fun a b => charListLe a.1.data b.1.data = true) r.details) ++ ',' :: '\n' :: ' ' :: ' ' :: (jquote "checks" ++ ':' :: ' ' :: (checksJ r.checks ++ '\n' :: [rbrace]))))) := by
    apply expectChar_skip
    rw [hdata]
    simp [skipWs_cons, isWsChar, lbrace]
  have h2 : parseStr ((AsJson r).data.length + 1) ('\n' :: ' ' :: ' ' :: (jquote "details" ++ ':' :: ' ' :: (detailsJ (List.insertionSort (fun a b => charListLe a.1.data b.1.data = true) r.details) ++ ',' :: '\n' :: ' ' :: ' ' :: (jquote "checks" ++ ':' :: ' ' :: (checksJ r.checks ++ '\n' :: [rbrace]))))) =
      some ("details", ':' :: ' ' :: (detailsJ (List.insertionSort (fun a b => charListLe a.1.data b.1.data = true) r.details) ++ ',' :: '\n' :: ' ' :: ' ' :: (jquote "checks" ++ ':' :: ' ' :: (checksJ r.checks ++ '\n' :: [rbrace])))) := by
    apply parseStr_skip
    · simp [skipWs_cons, isWsChar, skipWs_jquote]
    · simp only [List.length_append, List.length_cons, List.length_nil, length_jquote]
      omega
  have h3 : expectChar ':' (':' :: ' ' :: (detailsJ (List.insertionSort (fun a b => charListLe a.1.data b.1.data = true) r.details) ++ ',' :: '\n' :: ' ' :: ' ' :: (jquote "checks" ++ ':' :: ' ' :: (checksJ r.checks ++ '\n' :: [rbrace])))) = some (' ' :: (detailsJ (List.insertionSort (fun a b => charListLe a.1.data b.1.data = true) r.details) ++ ',' :: '\n' :: ' ' :: ' ' :: (jquote "checks" ++ ':' :: ' ' :: (checksJ r.checks ++ '\n' :: [rbrace])))) := by
    apply expectChar_skip
    simp [skipWs_cons, isWsChar]
  have h4 : parseDetails ((AsJson r).data.length + 1) (' ' :: (detailsJ (List.insertionSort (fun a b => charListLe a.1.data b.1.data = true) r.details) ++ ',' :: '\n' :: ' ' :: ' ' :: (jquote "checks" ++ ':' :: ' ' :: (checksJ r.checks ++ '\n' :: [rbrace])))) =
      some (List.insertionSort (fun a b => charListLe a.1.data b.1.data = true) r.details, ',' :: '\n' :: ' ' :: ' ' :: (jquote "checks" ++ ':' :: ' ' :: (checksJ r.checks ++ '\n' :: [rbrace]))) := by
    apply parseDetails_render
    · simp [skipWs_cons, isWsChar, skipWs_detailsJ]
    · simp only [List.length_append, List.length_cons, List.length_nil, length_jquote]
      omega
  have h5 : expectChar ',' (',' :: '\n' :: ' ' :: ' ' :: (jquote "checks" ++ ':' :: ' ' :: (checksJ r.checks ++ '\n' :: [rbrace]))) =
      some ('\n' :: ' ' :: ' ' :: (jquote "checks" ++ ':' :: ' ' :: (checksJ r.checks ++ '\n' :: [rbrace]))) := by
    apply expectChar_skip
    simp [skipWs_cons, isWsChar]
  have h6 : parseStr ((AsJson r).data.length + 1) ('\n' :: ' ' :: ' ' :: (jquote "checks" ++ ':' :: ' ' :: (checksJ r.checks ++ '\n' :: [rbrace]))) =
      some ("checks", ':' :: ' ' :: (checksJ r.checks ++ '\n' :: [rbrace])) := by
    apply parseStr_skip
    · simp [skipWs_cons, isWsChar, skipWs_jquote]
    · simp only [List.length_append, List.length_cons, List.length_nil, length_jquote]
      omega
  have h7 : expectChar ':' (':' :: ' ' :: (checksJ r.checks ++ '\n' :: [rbrace])) = some (' ' :: (checksJ r.checks ++ '\n' :: [rbrace])) := by
    apply expectChar_skip
    simp [skipWs_cons, isWsChar]
  have h8 : parseChecks ((AsJson r).data.length + 1) (' ' :: (checksJ r.checks ++ '\n' :: [rbrace])) =
      some (r.checks, '\n' :: [rbrace]) := by
    apply parseChecks_render
    · simp [skipWs_cons, isWsChar, skipWs_checksJ]
    · simp only [List.length_append, List.length_cons, List.length_nil, length_jquote]
      omega
  have h9 : expectChar rbrace ('\n' :: [rbrace]) = some [] := by
    apply expectChar_skip
    simp [skipWs_cons, isWsChar, rbrace]
  simp only [parseReport, h1, h2, h3, h4, h5, h6, h7, h8, h9]
  simp [skipWs]

/-- The two checks the probe emits for `sampleState` when verification
succeeds (used to instantiate theorems). -/
def sampleVersionCheckOk : CommonCheck :=
  { type := "network", category := CategoryNetworkTLSVersion, status := statusOk,
    message := "TLS version: " ++ goQuote "example.com" ++ " -> " ++ "TLS 1.3",
    link := docsLink "troubleshooting/firewall-and-proxies" }

def samplePassCheck : CommonCheck :=
  { type := "network", category := CategoryNetworkTLSVerify, status := statusOk,
    message := "TLS verification of " ++ goQuote "example.com" ++
      " passed with certificate issued by " ++ goQuote "CN=Sample Root CA",
    link := docsLink "troubleshooting/firewall-and-proxies" }

/-! ### Helper lemmas -/

theorem data_nil_eq (s : String) (h : s.data = []) : s = "" := by
  rw [show s = String.mk s.data from rfl, h]

theorem append_ne_empty_left (s t : String) (h : s ≠ "") : s ++ t ≠ "" := by
  intro he
  apply h
  apply data_nil_eq
  have hd : (s ++ t).data = ([] : List Char) := by rw [he]
  rw [String.data_append] at hd
  exact (List.append_eq_nil.mp hd).1

theorem append_ne_empty_right (s t : String) (h : t ≠ "") : s ++ t ≠ "" := by
  intro he
  apply h
  apply data_nil_eq
  have hd : (s ++ t).data = ([] : List Char) := by rw [he]
  rw [String.data_append] at hd
  exact (List.append_eq_nil.mp hd).2

theorem lookupTrust_setTrust (t : TrustTable) (k : String) (v : Bool) :
    lookupTrust (setTrust t k v) k = some v := by
  induction t with
  | nil => simp [setTrust, lookupTrust]
  | cons kv rest ih =>
    obtain ⟨k', v'⟩ := kv
    by_cases h : k' = k
    · simp [setTrust, lookupTrust, h]
    · simp [setTrust, lookupTrust, h, ih]

theorem certificateParts_isSome (certs : List Certificate) : ∀ idx : Nat,
    (certificateParts idx certs).isSome = true ↔ ∀ c ∈ certs, 6 ≤ c.signature.length := by
  induction certs with
  | nil => intro idx; simp [certificateParts]
  | cons c rest ih =>
    intro idx
    by_cases h : 6 ≤ c.signature.length
    · rcases hq : certificateParts (idx + 1) rest with _ | parts
      · have hno : ¬ ∀ x ∈ rest, 6 ≤ x.signature.length := by
          rw [← ih (idx + 1), hq]
          simp
        simp [certificateParts, certificatePart, h, hq]
        push_neg at hno
        exact hno
      · have hr : ∀ x ∈ rest, 6 ≤ x.signature.length := by
          rw [← ih (idx + 1), hq]
          rfl
        simp [certificateParts, certificatePart, h, hq]
        exact hr
    · simp [certificateParts, certificatePart, h]

/-! ### Claim theorems -/

/-- C10: `certificateChain` renders the first 6 signature bytes with an
unguarded slice, so it is total exactly when every certificate in the chain
has a signature of at least 6 bytes; on a chain containing a certificate
with a shorter signature the result is undefined (the Go slice panics,
embedded as `none`). -/
theorem certificateChain_signature_precondition :
    (∀ certs : List Certificate,
      (certificateChain certs).isSome = true ↔ ∀ c ∈ certs, 6 ≤ c.signature.length) ∧
    certificateChain [shortSignatureCert] = none := by
  constructor
  · intro certs
    have h := certificateParts_isSome certs 0
    unfold certificateChain
    rcases hp : certificateParts 0 certs with _ | p
    · rw [hp] at h
      simpa using h
    · rw [hp] at h
      simpa using h
  · rfl

/-- C3: a transport-level failure of the probe produces exactly one check
for that host: a `warning`-status, `network`-type, link-category check, and
no version or verify checks, leaving the trust table untouched. -/
theorem tlsCheckHost_transport_error {ρ : Type} (rootCAs : ρ)
    (verify : Certificate → VerifyOptions ρ → Option String) (debugFlag : Bool)
    (err host : String) (roots : TrustTable) :
    ∃ c : CommonCheck,
      tlsCheckHost rootCAs verify debugFlag (Except.error err) host roots =
        some ([c], roots) ∧
      c.status = statusWarning ∧ c.type = "network" ∧ c.category = CategoryNetworkLink ∧
      c.category ≠ CategoryNetworkTLSVersion ∧ c.category ≠ CategoryNetworkTLSVerify ∧
      c.message = "https://" ++ host ++ "/" ++ " -> " ++ err := by
  refine ⟨{ type := "network", category := CategoryNetworkLink, status := statusWarning,
            message := "https://" ++ host ++ "/" ++ " -> " ++ err,
            link := docsLink "troubleshooting/firewall-and-proxies" },
          rfl, rfl, rfl, rfl,
          (by decide : CategoryNetworkLink ≠ CategoryNetworkTLSVersion),
          (by decide : CategoryNetworkLink ≠ CategoryNetworkTLSVerify), rfl⟩

/-- C5 counterexample: a failing DNS lookup yields a check whose status is
`fail`, not `warning` as the claim states. -/
theorem dnsLookupCheck_status_counterexample :
    (dnsLookupCheck (fun _ => Except.error "no such host") "pypi.org").status = statusFail ∧
    statusFail ≠ statusWarning := by
  exact ⟨rfl, by decide⟩

/-- C5 amended: for every host whose DNS lookup fails, the recorded check
has status `fail` and type `network` (a report check, not a tool error),
and the run still completes: `RunDiagnostics` is total and its report
contains that check for every configured host. -/
theorem dnsLookupCheck_failure_amended (lookupHost : String → Except String (List String))
    (site err : String) (h : lookupHost site = Except.error err) :
    (dnsLookupCheck lookupHost site).status = statusFail ∧
    (dnsLookupCheck lookupHost site).type = "network" ∧
    (dnsLookupCheck lookupHost site).message = "DNS lookup " ++ site ++ " failed: " ++ err ∧
    ∀ env : Env, env.lookupHost = lookupHost → site ∈ checkedHosts →
      dnsLookupCheck lookupHost site ∈ (RunDiagnostics env).checks := by
  refine ⟨by simp [dnsLookupCheck, h], by simp [dnsLookupCheck, h],
    by simp [dnsLookupCheck, h], ?_⟩
  intro env henv hsite
  simp only [RunDiagnostics]
  simp only [List.mem_cons, List.mem_append, List.mem_map]
  refine Or.inr (Or.inr (Or.inl ⟨site, hsite, ?_⟩))
  rw [henv]

/-- C5 amended, witness. -/
theorem dnsLookupCheck_failure_amended_witness :
    (dnsLookupCheck (fun _ => Except.error "boom") "pypi.org").status = statusFail ∧
    (dnsLookupCheck (fun _ => Except.error "boom") "pypi.org").type = "network" ∧
    (dnsLookupCheck (fun _ => Except.error "boom") "pypi.org").message =
      "DNS lookup " ++ "pypi.org" ++ " failed: " ++ "boom" ∧
    ∀ env : Env, env.lookupHost = (fun _ => Except.error "boom") → "pypi.org" ∈ checkedHosts →
      dnsLookupCheck (fun _ => Except.error "boom") "pypi.org" ∈ (RunDiagnostics env).checks :=
  dnsLookupCheck_failure_amended (fun _ => Except.error "boom") "pypi.org" "boom" rfl

/-- C6 counterexample: at a concrete environment, the first check appended
by `RunDiagnostics` is the home-directory (`RPA`) check, not the
filesystem/path-length (`OS`) check the claim puts first. -/
theorem runDiagnostics_order_counterexample :
    (RunDiagnostics sampleEnv).checks.head? = some (robocorpHomeCheck sampleEnv) ∧
    robocorpHomeCheck sampleEnv ≠ longPathSupportCheck sampleEnv ∧
    (RunDiagnostics sampleEnv).checks.head? ≠ some (longPathSupportCheck sampleEnv) := by
  refine ⟨rfl, by decide, ?_⟩
  intro h
  have : robocorpHomeCheck sampleEnv = longPathSupportCheck sampleEnv := by
    have h0 : (RunDiagnostics sampleEnv).checks.head? = some (robocorpHomeCheck sampleEnv) := rfl
    rw [h0] at h
    exact Option.some.inj h
  exact absurd this (by decide)

/-- C6 amended: `RunDiagnostics` appends checks in this fixed order: the
home-directory validity check first, then the filesystem/path-length
capability check, then one DNS check per configured host in list order,
then the canary-download check; nothing is reordered or deduplicated. -/
theorem runDiagnostics_check_order (env : Env) :
    (RunDiagnostics env).checks =
      robocorpHomeCheck env :: longPathSupportCheck env ::
        (checkedHosts.map (dnsLookupCheck env.lookupHost) ++ [canaryDownloadCheck env]) ∧
    (RunDiagnostics env).checks.length = 2 + checkedHosts.length + 1 := by
  exact ⟨rfl, rfl⟩

/-- C8: the human-readable rendering prints the `details` entries under a
key list that is sorted and a permutation of the inserted keys, and prints
the checks in their original insertion order. -/
theorem humaneDiagnostics_order (r : DiagnosticStatus) :
    ∃ ks : List String,
      humaneDiagnostics r =
        "Diagnostics:" ::
          (ks.map (fun key => " - " ++ goPadRight key 18 ++ "...  " ++
            goQuote (mapIndex r.details key)) ++
            "" :: "Checks:" ::
            r.checks.map (fun check => " - " ++ goPadRight check.type 8 ++ " " ++
              goPadRight check.status 8 ++ " " ++ check.message)) ∧
      List.Sorted (fun a b => a ≤ b) ks ∧ ks.Perm (r.details.map Prod.fst) := by
  refine ⟨List.insertionSort (fun a b => a ≤ b) (r.details.map Prod.fst), ?_, ?_, ?_⟩
  · simp [humaneDiagnostics]
  · exact List.sorted_insertionSort (fun a b => a ≤ b) (r.details.map Prod.fst)
  · exact List.perm_insertionSort (fun a b => a ≤ b) (r.details.map Prod.fst)

/-- C9: serializing a report with `AsJson` and parsing the result back
yields a structurally identical report, and re-serializing the parsed
report is byte-identical.  The hypothesis states that the `details`
association list is canonical for a Go map: keys strictly sorted (hence
distinct), the order `MarshalIndent` itself emits. -/
theorem asJson_roundTrip (r : DiagnosticStatus)
    (hsorted : List.Sorted (fun a b => charListLe a.1.data b.1.data = true) r.details) :
    parseReport (AsJson r) = some r ∧
    ∀ r' : DiagnosticStatus, parseReport (AsJson r) = some r' → AsJson r' = AsJson r := by
  have hs : List.insertionSort (fun a b => charListLe a.1.data b.1.data = true) r.details =
      r.details :=
    List.Sorted.insertionSort_eq hsorted
  have h := parseReport_asJson r
  rw [hs] at h
  have h' : parseReport (AsJson r) = some r := h
  refine ⟨h', fun r' hr' => ?_⟩
  rw [h'] at hr'
  rw [← Option.some.inj hr']

/-- C9, witness. -/
theorem asJson_roundTrip_witness :
    parseReport (AsJson sampleReport) = some sampleReport ∧
    ∀ r' : DiagnosticStatus, parseReport (AsJson sampleReport) = some r' →
      AsJson r' = AsJson sampleReport :=
  asJson_roundTrip sampleReport (by decide)

theorem isPre_self_append : ∀ p t : List Char, isPre p (p ++ t) = true := by
  intro p
  induction p with
  | nil => intro t; rfl
  | cons a as ih => intro t; simp [isPre, ih]

theorem hasSub_self_append (pat t : List Char) : hasSub pat (pat ++ t) = true := by
  cases pat with
  | nil =>
    cases t with
    | nil => rfl
    | cons c r => simp [hasSub, isPre]
  | cons a as =>
    simp [hasSub, isPre, isPre_self_append]

theorem no_certificates_infix (server : String) :
    hasSub "no certificates".data ("no certificates for " ++ server).data = true := by
  rw [String.data_append]
  rw [show ("no certificates for " : String).data =
    "no certificates".data ++ " for ".data from rfl]
  rw [List.append_assoc]
  exact hasSub_self_append _ _

/-- C4: for a probe that yields an empty peer chain, the final check is a
`warning` verify-category check whose message names the negotiated server
after "no certificates", the trust table is unchanged, and (whenever the
version check's message does not itself contain the phrase) it is the only
check whose message contains "no certificates". -/
theorem tlsCheckHost_empty_chain {ρ : Type} (rootCAs : ρ)
    (verify : Certificate → VerifyOptions ρ → Option String) (debugFlag : Bool)
    (state : ConnState) (host : String) (roots : TrustTable)
    (checks : List CommonCheck) (roots' : TrustTable)
    (hcerts : state.peerCertificates = [])
    (hrun : tlsCheckHost rootCAs verify debugFlag (Except.ok state) host roots =
      some (checks, roots')) :
    ∃ vc : CommonCheck,
      checks = [vc,
        { type := "network", category := CategoryNetworkTLSVerify, status := statusWarning,
          message := "no certificates for " ++ state.serverName,
          link := docsLink "troubleshooting/firewall-and-proxies" }] ∧
      roots' = roots ∧ vc.category = CategoryNetworkTLSVersion ∧
      (hasSub "no certificates".data vc.message.data = false →
        checks.countP (fun c => hasSub "no certificates".data c.message.data) = 1) := by
  rcases hv : tlsVersions state.version with _ | v <;>
    simp only [tlsCheckHost, hcerts, hv, Option.some.injEq, Prod.mk.injEq] at hrun <;>
    obtain ⟨hchk, hrt⟩ := hrun <;>
    subst hchk <;> subst hrt
  · refine ⟨_, rfl, rfl, rfl, ?_⟩
    intro hno
    simp only [List.countP_cons, List.countP_nil, hno, no_certificates_infix]
    simp
    exact no_certificates_infix state.serverName
  · refine ⟨_, rfl, rfl, rfl, ?_⟩
    intro hno
    simp only [List.countP_cons, List.countP_nil, hno, no_certificates_infix]
    simp
    exact no_certificates_infix state.serverName

/-- C4, witness. -/
theorem tlsCheckHost_empty_chain_witness :
    ∃ vc : CommonCheck,
      [({ type := "network", category := CategoryNetworkTLSVersion, status := statusOk,
          message := "TLS version: " ++ goQuote "h" ++ " -> " ++ "TLS 1.3",
          link := docsLink "troubleshooting/firewall-and-proxies" } : CommonCheck),
       { type := "network", category := CategoryNetworkTLSVerify, status := statusWarning,
         message := "no certificates for " ++
           ({ version := 0x0304, serverName := "srv", peerCertificates := [] } :
             ConnState).serverName,
         link := docsLink "troubleshooting/firewall-and-proxies" }] = [vc,
        { type := "network", category := CategoryNetworkTLSVerify, status := statusWarning,
          message := "no certificates for " ++
            ({ version := 0x0304, serverName := "srv", peerCertificates := [] } :
              ConnState).serverName,
          link := docsLink "troubleshooting/firewall-and-proxies" }] ∧
      ([] : TrustTable) = [] ∧ vc.category = CategoryNetworkTLSVersion ∧
      (hasSub "no certificates".data vc.message.data = false →
        ([({ type := "network", category := CategoryNetworkTLSVersion, status := statusOk,
             message := "TLS version: " ++ goQuote "h" ++ " -> " ++ "TLS 1.3",
             link := docsLink "troubleshooting/firewall-and-proxies" } : CommonCheck),
          { type := "network", category := CategoryNetworkTLSVerify, status := statusWarning,
            message := "no certificates for " ++
              ({ version := 0x0304, serverName := "srv", peerCertificates := [] } :
                ConnState).serverName,
            link := docsLink "troubleshooting/firewall-and-proxies" }]).countP
          (fun c => hasSub "no certificates".data c.message.data) = 1) :=
  tlsCheckHost_empty_chain (ρ := Unit) () (fun _ _ => none) false
    { version := 0x0304, serverName := "srv", peerCertificates := [] } "h" [] _ _ rfl rfl

/-- C2: the first check a successful probe emits is the version check:
`ok` for TLS 1.2/1.3, `warning` for SSLv3/TLS 1.0/TLS 1.1, and for any
version outside the five-entry table a distinct `warning` check carrying an
"unknown TLS version" message; with the debug flag off the probe is total
(no crash) for every connection outcome. -/
theorem tlsCheckHost_version_classification {ρ : Type} (rootCAs : ρ)
    (verify : Certificate → VerifyOptions ρ → Option String) (debugFlag : Bool)
    (state : ConnState) (host : String) (roots : TrustTable)
    (checks : List CommonCheck) (roots' : TrustTable)
    (hrun : tlsCheckHost rootCAs verify debugFlag (Except.ok state) host roots =
      some (checks, roots')) :
    (∃ vc rest, checks = vc :: rest ∧ vc.type = "network" ∧
      vc.category = CategoryNetworkTLSVersion ∧
      ((state.version = VersionTLS12 ∨ state.version = VersionTLS13) →
        vc.status = statusOk) ∧
      ((state.version = VersionSSL30 ∨ state.version = VersionTLS10 ∨
          state.version = VersionTLS11) → vc.status = statusWarning) ∧
      (tlsVersions state.version = none → vc.status = statusWarning ∧
        vc.message = "unknown TLS version: " ++ goQuote host ++ " -> " ++
          goHex3 state.version)) ∧
    (∀ (connect : Except String ConnState) (host' : String) (roots₀ : TrustTable),
      (tlsCheckHost rootCAs verify false connect host' roots₀).isSome = true) := by
  constructor
  · obtain ⟨rest, hck⟩ : ∃ rest, checks =
        (match tlsVersions state.version with
          | none =>
            { type := "network", category := CategoryNetworkTLSVersion,
              status := statusWarning,
              message := "unknown TLS version: " ++ goQuote host ++ " -> " ++
                goHex3 state.version,
              link := docsLink "troubleshooting/firewall-and-proxies" }
          | some version =>
            { type := "network", category := CategoryNetworkTLSVersion,
              status := if state.version < VersionTLS12 then statusWarning else statusOk,
              message := "TLS version: " ++ goQuote host ++ " -> " ++ version,
              link := docsLink "troubleshooting/firewall-and-proxies" } : CommonCheck) ::
        rest := by
      rcases hcrt : state.peerCertificates with _ | ⟨leaf, inter⟩
      · simp only [tlsCheckHost, hcrt, Option.some.injEq, Prod.mk.injEq] at hrun
        exact ⟨_, hrun.1.symm⟩
      · rcases hverd : verify leaf
            { dnsName := state.serverName, roots := rootCAs, intermediates := inter }
          with _ | err
        · simp only [tlsCheckHost, hcrt, hverd, Option.some.injEq, Prod.mk.injEq] at hrun
          exact ⟨_, hrun.1.symm⟩
        · rcases debugFlag with _ | _
          · simp only [tlsCheckHost, hcrt, hverd, Bool.false_eq_true, if_false,
              Option.some.injEq, Prod.mk.injEq] at hrun
            exact ⟨_, hrun.1.symm⟩
          · rcases hcc : certificateChain (leaf :: inter) with _ | chain
            · simp only [tlsCheckHost, hcrt, hverd, hcc, if_true, Option.map_none'] at hrun
              exact absurd hrun (by simp)
            · simp only [tlsCheckHost, hcrt, hverd, hcc, if_true, Option.map_some',
                Option.some.injEq, Prod.mk.injEq] at hrun
              exact ⟨_, hrun.1.symm⟩
    refine ⟨_, rest, hck, ?_, ?_, ?_, ?_, ?_⟩
    · rcases hv : tlsVersions state.version with _ | v <;> simp [hv]
    · rcases hv : tlsVersions state.version with _ | v <;> simp [hv]
    · intro h
      rcases h with h | h <;> rw [h] <;>
        simp [tlsVersions, VersionSSL30, VersionTLS10, VersionTLS11, VersionTLS12,
          VersionTLS13]
    · intro h
      rcases h with h | h | h <;> rw [h] <;>
        simp [tlsVersions, VersionSSL30, VersionTLS10, VersionTLS11, VersionTLS12,
          VersionTLS13]
    · intro h
      simp [h]
  · intro connect host' roots₀
    rcases connect with err | st
    · simp [tlsCheckHost]
    · rcases hcrt : st.peerCertificates with _ | ⟨l, i⟩
      · simp [tlsCheckHost, hcrt]
      · rcases hverd : verify l
            { dnsName := st.serverName, roots := rootCAs, intermediates := i }
          with _ | err
        · simp [tlsCheckHost, hcrt, hverd]
        · simp [tlsCheckHost, hcrt, hverd]

/-- C2, witness. -/
theorem tlsCheckHost_version_classification_witness :
    ((∃ vc rest,
      (([({ type := "network", category := CategoryNetworkTLSVersion, status := statusOk,
            message := "TLS version: " ++ goQuote "example.com" ++ " -> " ++ "TLS 1.3",
            link := docsLink "troubleshooting/firewall-and-proxies" } : CommonCheck),
         { type := "network", category := CategoryNetworkTLSVerify, status := statusOk,
           message := "TLS verification of " ++ goQuote "example.com" ++
             " passed with certificate issued by " ++ goQuote "CN=Sample Root CA",
           link := docsLink "troubleshooting/firewall-and-proxies" }]) : List CommonCheck) =
        vc :: rest ∧ vc.type = "network" ∧
      vc.category = CategoryNetworkTLSVersion ∧
      ((sampleState.version = VersionTLS12 ∨ sampleState.version = VersionTLS13) →
        vc.status = statusOk) ∧
      ((sampleState.version = VersionSSL30 ∨ sampleState.version = VersionTLS10 ∨
          sampleState.version = VersionTLS11) → vc.status = statusWarning) ∧
      (tlsVersions sampleState.version = none → vc.status = statusWarning ∧
        vc.message = "unknown TLS version: " ++ goQuote "example.com" ++ " -> " ++
          goHex3 sampleState.version)) ∧
    (∀ (connect : Except String ConnState) (host' : String) (roots₀ : TrustTable),
      (tlsCheckHost (ρ := Unit) () (fun _ _ => none) false connect host' roots₀).isSome =
        true)) :=
  tlsCheckHost_version_classification (ρ := Unit) () (fun _ _ => none) false
    sampleState "example.com" [] _ _ rfl

/-- C1: for every non-empty peer chain, the probe emits exactly one
verify-category check, whose status is `ok` exactly when path verification
of the leaf succeeded and `warning` exactly when it failed; the trust
table is updated at the issuer of the last chain element with the boolean
outcome, overwriting any prior entry for that issuer (last write wins). -/
theorem tlsCheckHost_verify_trust {ρ : Type} (rootCAs : ρ)
    (verify : Certificate → VerifyOptions ρ → Option String) (debugFlag : Bool)
    (state : ConnState) (host : String) (roots : TrustTable)
    (leaf : Certificate) (intermediates : List Certificate)
    (checks : List CommonCheck) (roots' : TrustTable)
    (hcerts : state.peerCertificates = leaf :: intermediates)
    (hrun : tlsCheckHost rootCAs verify debugFlag (Except.ok state) host roots =
      some (checks, roots')) :
    checks.countP (fun c => c.category == CategoryNetworkTLSVerify) = 1 ∧
    (∀ c ∈ checks, c.category = CategoryNetworkTLSVerify →
      c.status =
        if (verify leaf ⟨state.serverName, rootCAs, intermediates⟩).isNone then statusOk
        else statusWarning) ∧
    roots' = setTrust roots (intermediates.getLastD leaf).issuer
      (verify leaf ⟨state.serverName, rootCAs, intermediates⟩).isNone ∧
    (∀ (t : TrustTable) (k : String) (v : Bool), lookupTrust (setTrust t k v) k = some v) := by
  rcases hv : tlsVersions state.version with _ | v <;>
    rcases hverd : verify leaf ⟨state.serverName, rootCAs, intermediates⟩ with _ | err
  · simp only [tlsCheckHost, hcerts, hv, hverd, Option.isNone_none,
      Option.some.injEq, Prod.mk.injEq] at hrun
    obtain ⟨hck, hrt⟩ := hrun
    subst hck
    subst hrt
    refine ⟨by simp [List.countP_cons, List.countP_nil, CategoryNetworkTLSVersion,
          CategoryNetworkTLSVerify, CategoryNetworkTLSChain], ?_, by simp [hverd],
        lookupTrust_setTrust⟩
    intro c hc hcat
    simp only [List.mem_cons, List.not_mem_nil, or_false] at hc
    rcases hc with rfl | rfl
    · simp [CategoryNetworkTLSVersion, CategoryNetworkTLSVerify, CategoryNetworkTLSChain] at hcat
    · simp [hverd, statusOk]
  · rcases debugFlag with _ | _
    · simp only [tlsCheckHost, hcerts, hv, hverd, Bool.false_eq_true, if_false,
        Option.isNone_some, Option.some.injEq, Prod.mk.injEq] at hrun
      obtain ⟨hck, hrt⟩ := hrun
      subst hck
      subst hrt
      refine ⟨by simp [List.countP_cons, List.countP_nil, CategoryNetworkTLSVersion,
          CategoryNetworkTLSVerify, CategoryNetworkTLSChain], ?_, by simp [hverd],
        lookupTrust_setTrust⟩
      intro c hc hcat
      simp only [List.mem_cons, List.not_mem_nil, or_false] at hc
      rcases hc with rfl | rfl
      · simp [CategoryNetworkTLSVersion, CategoryNetworkTLSVerify, CategoryNetworkTLSChain] at hcat
      · simp [hverd, statusWarning]
    · rcases hcc : certificateChain (leaf :: intermediates) with _ | chain
      · simp only [tlsCheckHost, hcerts, hv, hverd, hcc, if_true, Option.map_none'] at hrun
        exact absurd hrun (by simp)
      · simp only [tlsCheckHost, hcerts, hv, hverd, hcc, if_true, Option.map_some',
          Option.isNone_some, Option.some.injEq, Prod.mk.injEq] at hrun
        obtain ⟨hck, hrt⟩ := hrun
        subst hck
        subst hrt
        refine ⟨by simp [List.countP_cons, List.countP_nil, CategoryNetworkTLSVersion,
          CategoryNetworkTLSVerify, CategoryNetworkTLSChain], ?_, by simp [hverd],
        lookupTrust_setTrust⟩
        intro c hc hcat
        simp only [List.mem_cons, List.not_mem_nil, or_false] at hc
        rcases hc with rfl | rfl | rfl
        · simp [CategoryNetworkTLSVersion, CategoryNetworkTLSVerify, CategoryNetworkTLSChain] at hcat
        · simp [hverd, statusWarning]
        · simp [CategoryNetworkTLSVersion, CategoryNetworkTLSVerify, CategoryNetworkTLSChain] at hcat
  · simp only [tlsCheckHost, hcerts, hv, hverd, Option.isNone_none,
      Option.some.injEq, Prod.mk.injEq] at hrun
    obtain ⟨hck, hrt⟩ := hrun
    subst hck
    subst hrt
    refine ⟨by simp [List.countP_cons, List.countP_nil, CategoryNetworkTLSVersion,
          CategoryNetworkTLSVerify, CategoryNetworkTLSChain], ?_, by simp [hverd],
        lookupTrust_setTrust⟩
    intro c hc hcat
    simp only [List.mem_cons, List.not_mem_nil, or_false] at hc
    rcases hc with rfl | rfl
    · simp [CategoryNetworkTLSVersion, CategoryNetworkTLSVerify, CategoryNetworkTLSChain] at hcat
    · simp [hverd, statusOk]
  · rcases debugFlag with _ | _
    · simp only [tlsCheckHost, hcerts, hv, hverd, Bool.false_eq_true, if_false,
        Option.isNone_some, Option.some.injEq, Prod.mk.injEq] at hrun
      obtain ⟨hck, hrt⟩ := hrun
      subst hck
      subst hrt
      refine ⟨by simp [List.countP_cons, List.countP_nil, CategoryNetworkTLSVersion,
          CategoryNetworkTLSVerify, CategoryNetworkTLSChain], ?_, by simp [hverd],
        lookupTrust_setTrust⟩
      intro c hc hcat
      simp only [List.mem_cons, List.not_mem_nil, or_false] at hc
      rcases hc with rfl | rfl
      · simp [CategoryNetworkTLSVersion, CategoryNetworkTLSVerify, CategoryNetworkTLSChain] at hcat
      · simp [hverd, statusWarning]
    · rcases hcc : certificateChain (leaf :: intermediates) with _ | chain
      · simp only [tlsCheckHost, hcerts, hv, hverd, hcc, if_true, Option.map_none'] at hrun
        exact absurd hrun (by simp)
      · simp only [tlsCheckHost, hcerts, hv, hverd, hcc, if_true, Option.map_some',
          Option.isNone_some, Option.some.injEq, Prod.mk.injEq] at hrun
        obtain ⟨hck, hrt⟩ := hrun
        subst hck
        subst hrt
        refine ⟨by simp [List.countP_cons, List.countP_nil, CategoryNetworkTLSVersion,
          CategoryNetworkTLSVerify, CategoryNetworkTLSChain], ?_, by simp [hverd],
        lookupTrust_setTrust⟩
        intro c hc hcat
        simp only [List.mem_cons, List.not_mem_nil, or_false] at hc
        rcases hc with rfl | rfl | rfl
        · simp [CategoryNetworkTLSVersion, CategoryNetworkTLSVerify, CategoryNetworkTLSChain] at hcat
        · simp [hverd, statusWarning]
        · simp [CategoryNetworkTLSVersion, CategoryNetworkTLSVerify, CategoryNetworkTLSChain] at hcat

/-- C1, witness. -/
theorem tlsCheckHost_verify_trust_witness :
    ([sampleVersionCheckOk, samplePassCheck].countP
      (fun c => c.category == CategoryNetworkTLSVerify) = 1) ∧
    (∀ c ∈ [sampleVersionCheckOk, samplePassCheck],
      c.category = CategoryNetworkTLSVerify →
      c.status = if (none : Option String).isNone then statusOk else statusWarning) ∧
    ([("CN=Sample Root CA", true)] : TrustTable) =
      setTrust [] "CN=Sample Root CA" (none : Option String).isNone ∧
    (∀ (t : TrustTable) (k : String) (v : Bool), lookupTrust (setTrust t k v) k = some v) :=
  tlsCheckHost_verify_trust (ρ := Unit) () (fun _ _ => none) false sampleState
    "example.com" [] sampleCert [] _ _ rfl rfl

/-- C7: every check any producer adds to a report carries a non-empty
message and a status drawn from the four-value enum. -/
theorem checks_carry_message_and_status :
    (∀ env : Env, ∀ c ∈ (RunDiagnostics env).checks,
      c.message ≠ "" ∧ c.status ∈ [statusOk, statusWarning, statusFail, statusFatal]) ∧
    (∀ (ρ : Type) (rootCAs : ρ) (verify : Certificate → VerifyOptions ρ → Option String)
      (debugFlag : Bool) (connect : Except String ConnState) (host : String)
      (roots : TrustTable) (out : List CommonCheck × TrustTable),
      tlsCheckHost rootCAs verify debugFlag connect host roots = some out →
      ∀ c ∈ out.1,
        c.message ≠ "" ∧ c.status ∈ [statusOk, statusWarning, statusFail, statusFatal]) := by
  constructor
  · intro env c hc
    simp only [RunDiagnostics, List.mem_cons, List.mem_append, List.mem_map,
      List.not_mem_nil, or_false] at hc
    rcases hc with rfl | rfl | ⟨site, hsite, rfl⟩ | rfl
    · unfold robocorpHomeCheck
      split <;> exact ⟨(by (repeat apply append_ne_empty_left); decide), (by first | (split <;> simp) | simp)⟩
    · unfold longPathSupportCheck
      split <;> exact ⟨(by (repeat apply append_ne_empty_left); decide), (by first | (split <;> simp) | simp)⟩
    · rcases hlk : env.lookupHost site with err | found
      · simp only [dnsLookupCheck, hlk]
        exact ⟨(by (repeat apply append_ne_empty_left); decide), (by first | (split <;> simp) | simp)⟩
      · simp only [dnsLookupCheck, hlk]
        exact ⟨by apply append_ne_empty_left; apply append_ne_empty_right; decide, (by first | (split <;> simp) | simp)⟩
    · rcases hne : env.newClientError with _ | err
      · simp only [canaryDownloadCheck, hne]
        split <;> exact ⟨(by (repeat apply append_ne_empty_left); decide), (by first | (split <;> simp) | simp)⟩
      · simp only [canaryDownloadCheck, hne]
        exact ⟨(by (repeat apply append_ne_empty_left); decide), (by first | (split <;> simp) | simp)⟩
  · intro ρ rootCAs verify debugFlag connect host roots out hrun c hc
    rcases connect with err | state
    · simp only [tlsCheckHost, Option.some.injEq] at hrun
      rw [← hrun] at hc
      simp only [List.mem_cons, List.not_mem_nil, or_false] at hc
      subst hc
      exact ⟨(by (repeat apply append_ne_empty_left); decide), (by first | (split <;> simp) | simp)⟩
    · rcases hv : tlsVersions state.version with _ | v <;>
        rcases hcrt : state.peerCertificates with _ | ⟨leaf, inter⟩
      · -- unknown version, empty chain
        simp only [tlsCheckHost, hv, hcrt, Option.some.injEq] at hrun
        rw [← hrun] at hc
        simp only [List.mem_cons, List.not_mem_nil, or_false] at hc
        rcases hc with rfl | rfl
        · exact ⟨(by simp only [goQuote]; (repeat apply append_ne_empty_left); decide), (by first | (split <;> simp) | simp)⟩
        · exact ⟨(by (repeat apply append_ne_empty_left); decide), (by first | (split <;> simp) | simp)⟩
      · -- unknown version, non-empty chain
        rcases hverd : verify leaf ⟨state.serverName, rootCAs, inter⟩ with _ | err
        · -- verification passed
          simp only [tlsCheckHost, hv, hcrt, hverd, Option.some.injEq] at hrun
          rw [← hrun] at hc
          simp only [List.mem_cons, List.not_mem_nil, or_false] at hc
          rcases hc with rfl | rfl
          · exact ⟨(by simp only [goQuote]; (repeat apply append_ne_empty_left); decide), (by first | (split <;> simp) | simp)⟩
          · exact ⟨(by simp only [goQuote]; (repeat apply append_ne_empty_left); decide), (by first | (split <;> simp) | simp)⟩
        · rcases debugFlag with _ | _
          · -- verification failed, debug off
            simp only [tlsCheckHost, hv, hcrt, hverd, Bool.false_eq_true, if_false, Option.some.injEq] at hrun
            rw [← hrun] at hc
            simp only [List.mem_cons, List.not_mem_nil, or_false] at hc
            rcases hc with rfl | rfl
            · exact ⟨(by simp only [goQuote]; (repeat apply append_ne_empty_left); decide), (by first | (split <;> simp) | simp)⟩
            · exact ⟨(by simp only [goQuote]; (repeat apply append_ne_empty_left); decide), (by first | (split <;> simp) | simp)⟩
          · rcases hcc : certificateChain (leaf :: inter) with _ | chain
            · simp only [tlsCheckHost, hv, hcrt, hverd, hcc, if_true,
                Option.map_none'] at hrun
              exact absurd hrun (by simp)
            · -- verification failed, debug on, chain rendered
              simp only [tlsCheckHost, hv, hcrt, hverd, hcc, if_true, Option.map_some', Option.some.injEq] at hrun
              rw [← hrun] at hc
              simp only [List.mem_cons, List.not_mem_nil, or_false] at hc
              rcases hc with rfl | rfl | rfl
              · exact ⟨(by simp only [goQuote]; (repeat apply append_ne_empty_left); decide), (by first | (split <;> simp) | simp)⟩
              · exact ⟨(by simp only [goQuote]; (repeat apply append_ne_empty_left); decide), (by first | (split <;> simp) | simp)⟩
              · exact ⟨(by simp only [goQuote]; (repeat apply append_ne_empty_left); decide), (by first | (split <;> simp) | simp)⟩
      · -- known version, empty chain
        simp only [tlsCheckHost, hv, hcrt, Option.some.injEq] at hrun
        rw [← hrun] at hc
        simp only [List.mem_cons, List.not_mem_nil, or_false] at hc
        rcases hc with rfl | rfl
        · exact ⟨(by simp only [goQuote]; (repeat apply append_ne_empty_left); decide), (by first | (split <;> simp) | simp)⟩
        · exact ⟨(by (repeat apply append_ne_empty_left); decide), (by first | (split <;> simp) | simp)⟩
      · -- known version, non-empty chain
        rcases hverd : verify leaf ⟨state.serverName, rootCAs, inter⟩ with _ | err
        · -- verification passed
          simp only [tlsCheckHost, hv, hcrt, hverd, Option.some.injEq] at hrun
          rw [← hrun] at hc
          simp only [List.mem_cons, List.not_mem_nil, or_false] at hc
          rcases hc with rfl | rfl
          · exact ⟨(by simp only [goQuote]; (repeat apply append_ne_empty_left); decide), (by first | (split <;> simp) | simp)⟩
          · exact ⟨(by simp only [goQuote]; (repeat apply append_ne_empty_left); decide), (by first | (split <;> simp) | simp)⟩
        · rcases debugFlag with _ | _
          · -- verification failed, debug off
            simp only [tlsCheckHost, hv, hcrt, hverd, Bool.false_eq_true, if_false, Option.some.injEq] at hrun
            rw [← hrun] at hc
            simp only [List.mem_cons, List.not_mem_nil, or_false] at hc
            rcases hc with rfl | rfl
            · exact ⟨(by simp only [goQuote]; (repeat apply append_ne_empty_left); decide), (by first | (split <;> simp) | simp)⟩
            · exact ⟨(by simp only [goQuote]; (repeat apply append_ne_empty_left); decide), (by first | (split <;> simp) | simp)⟩
          · rcases hcc : certificateChain (leaf :: inter) with _ | chain
            · simp only [tlsCheckHost, hv, hcrt, hverd, hcc, if_true,
                Option.map_none'] at hrun
              exact absurd hrun (by simp)
            · -- verification failed, debug on, chain rendered
              simp only [tlsCheckHost, hv, hcrt, hverd, hcc, if_true, Option.map_some', Option.some.injEq] at hrun
              rw [← hrun] at hc
              simp only [List.mem_cons, List.not_mem_nil, or_false] at hc
              rcases hc with rfl | rfl | rfl
              · exact ⟨(by simp only [goQuote]; (repeat apply append_ne_empty_left); decide), (by first | (split <;> simp) | simp)⟩
              · exact ⟨(by simp only [goQuote]; (repeat apply append_ne_empty_left); decide), (by first | (split <;> simp) | simp)⟩
              · exact ⟨(by simp only [goQuote]; (repeat apply append_ne_empty_left); decide), (by first | (split <;> simp) | simp)⟩

/-- C7, witness. -/
theorem checks_carry_message_and_status_witness :
    (robocorpHomeCheck sampleEnv).message ≠ "" ∧
    (robocorpHomeCheck sampleEnv).status ∈
      [statusOk, statusWarning, statusFail, statusFatal] :=
  checks_carry_message_and_status.1 sampleEnv (robocorpHomeCheck sampleEnv)
    (by simp [RunDiagnostics])

/-- C3, witness. -/
theorem tlsCheckHost_transport_error_witness :
    ∃ c : CommonCheck,
      tlsCheckHost (ρ := Unit) () (fun _ _ => none) false (Except.error "boom")
        "example.com" [] = some ([c], []) ∧
      c.status = statusWarning ∧ c.type = "network" ∧ c.category = CategoryNetworkLink ∧
      c.category ≠ CategoryNetworkTLSVersion ∧ c.category ≠ CategoryNetworkTLSVerify ∧
      c.message = "https://" ++ "example.com" ++ "/" ++ " -> " ++ "boom" :=
  tlsCheckHost_transport_error (ρ := Unit) () (fun _ _ => none) false "boom" "example.com" []

/-- C6 amended, witness. -/
theorem runDiagnostics_check_order_witness :
    (RunDiagnostics sampleEnv).checks =
      robocorpHomeCheck sampleEnv :: longPathSupportCheck sampleEnv ::
        (checkedHosts.map (dnsLookupCheck sampleEnv.lookupHost) ++
          [canaryDownloadCheck sampleEnv]) ∧
    (RunDiagnostics sampleEnv).checks.length = 2 + checkedHosts.length + 1 :=
  runDiagnostics_check_order sampleEnv

/-- C8, witness. -/
theorem humaneDiagnostics_order_witness :
    ∃ ks : List String,
      humaneDiagnostics sampleReport =
        "Diagnostics:" ::
          (ks.map (fun key => " - " ++ goPadRight key 18 ++ "...  " ++
            goQuote (mapIndex sampleReport.details key)) ++
            "" :: "Checks:" ::
            sampleReport.checks.map (fun check => " - " ++ goPadRight check.type 8 ++ " " ++
              goPadRight check.status 8 ++ " " ++ check.message)) ∧
      List.Sorted (fun a b => a ≤ b) ks ∧ ks.Perm (sampleReport.details.map Prod.fst) :=
  humaneDiagnostics_order sampleReport

/-- C10, witness. -/
theorem certificateChain_signature_precondition_witness :
    (certificateChain [sampleCert]).isSome = true ↔
      ∀ c ∈ [sampleCert], 6 ≤ c.signature.length :=
  certificateChain_signature_precondition.1 [sampleCert]
